import Mathlib

/-!
Verification development for the hotgigs backend core: the resume-parsing
pipeline (`enhanced_resume_parser.py`, `spacy_resume_parser.py`,
`resume_parser.py`) and the semantic job-matching engine
(`job_matching_engine.py`).  Python strings are modelled as `List Char`,
Python floats as `ℚ` (exact arithmetic), Python dict records as Lean
structures whose optional keys are `Option` fields.  External library calls
(spaCy NLP, network OCR, PDF/DOCX readers, scikit-learn TF-IDF models) are
modelled as explicit environment parameters; everything implemented in the
repository itself is translated directly from the source.
-/

/-- Python strings are modelled as lists of characters. -/
abbrev Str := List Char

/-- Coerce a Lean string literal to the `Str` model. -/
def S (s : String) : Str := s.data

/-- Characters stripped by Python `str.strip()` and matched by the regex
class `\s` (space, tab, newline, carriage return, vertical tab, form feed). -/
def pyIsSpace (c : Char) : Bool :=
  c = ' ' || c = '\t' || c = '\n' || c = '\r' || c = Char.ofNat 11 || c = Char.ofNat 12

/-- Python `str.lower()`. -/
def toLowerStr (s : Str) : Str := s.map Char.toLower

/-- Python `str.lstrip()`. -/
def lstrip (s : Str) : Str := s.dropWhile pyIsSpace

/-- Python `str.strip()`. -/
def stripStr (s : Str) : Str := ((lstrip s).reverse.dropWhile pyIsSpace).reverse

/-- Python `str.split(sep)` for a one-character separator: no run collapsing,
empty pieces kept. -/
def splitOnChar (c : Char) : Str → List Str
  | [] => [[]]
  | x :: xs =>
    if x = c then [] :: splitOnChar c xs
    else
      match splitOnChar c xs with
      | h :: t => (x :: h) :: t
      | [] => [[x]]

/-- Python `str.split("ab")` for a two-character separator, non-overlapping,
scanning left to right. -/
def splitOnPair (a b : Char) : Str → List Str
  | [] => [[]]
  | [x] => [[x]]
  | x :: y :: xs =>
    if x = a ∧ y = b then [] :: splitOnPair a b xs
    else
      match splitOnPair a b (y :: xs) with
      | h :: t => (x :: h) :: t
      | [] => [[x]]

/-- Split on whitespace characters, keeping empty pieces (helper for
`wordsOf`). -/
def splitWs : Str → List Str
  | [] => [[]]
  | x :: xs =>
    if pyIsSpace x then [] :: splitWs xs
    else
      match splitWs xs with
      | h :: t => (x :: h) :: t
      | [] => [[x]]

/-- Python `str.split()` with no argument: split on whitespace runs and drop
empty pieces. -/
def wordsOf (s : Str) : List Str := (splitWs s).filter (fun w => ¬ w.isEmpty)

/-- Last element of a list, or `[]` for an empty list (Python `[-1]` on the
nonempty results of `str.split`). -/
def lastStr (l : List Str) : Str := l.getLastD []

/-- File extension the Python services compute as
`filename.lower().split('.')[-1]`. -/
def extOf (filename : Str) : Str := lastStr (splitOnChar '.' (toLowerStr filename))

/-- Boolean list-prefix test. -/
def strPre : Str → Str → Bool
  | [], _ => true
  | _ :: _, [] => false
  | a :: as, b :: bs => a = b && strPre as bs

/-- Python `needle in haystack` on strings (substring test). -/
def substr (n : Str) : Str → Bool
  | [] => strPre n []
  | x :: xs => strPre n (x :: xs) || substr n xs

/-- Fueled worker for `countSubstr`. -/
def countSubA (n : Str) : Nat → Str → Nat
  | 0, _ => 0
  | _ + 1, [] => 0
  | fuel + 1, x :: xs =>
    if n ≠ [] ∧ n.isPrefixOf (x :: xs) then
      1 + countSubA n fuel (List.drop (n.length - 1) xs)
    else
      countSubA n fuel xs

/-- Python `haystack.count(needle)`: non-overlapping occurrences, scanning
left to right. -/
def countSubstr (n s : Str) : Nat := countSubA n s.length s

/-- Decimal digit string of a natural number. -/
def natToStr (n : Nat) : Str := Nat.toDigits 10 n

/-- Decimal string of an integer. -/
def intToStr (z : Int) : Str :=
  if z < 0 then '-' :: natToStr z.natAbs else natToStr z.natAbs

/-- Rendering of a rational in detail strings.  The Python source formats
floats with `str`/f-strings; binary floating-point shortest-repr is outside
the embedding, so the model prints the exact rational. -/
def fmtQ (q : ℚ) : Str := intToStr q.num ++ S "/" ++ natToStr q.den

/-- Python `str.title()`: uppercase every letter that follows a non-letter,
lowercase the rest. -/
def pyTitleAux : Bool → Str → Str
  | _, [] => []
  | prevAlpha, c :: cs =>
    (if c.isAlpha then (if prevAlpha then c.toLower else c.toUpper) else c)
      :: pyTitleAux c.isAlpha cs

/-- Python `str.title()`. -/
def pyTitle (s : Str) : Str := pyTitleAux false s

/-- Python `str.replace(a, b)` for single characters. -/
def replaceChar (a b : Char) (s : Str) : Str :=
  s.map (fun c => if c = a then b else c)

/-- Numeric value of a digit string. -/
def digitsVal (s : Str) : Nat :=
  s.foldl (fun acc c => 10 * acc + (c.toNat - '0'.toNat)) 0

/-- Python `' '.join(parts)`. -/
def joinSp (parts : List Str) : Str := List.intercalate [' '] parts

/-- Computable floor of a rational (Lean's `Int` division is Euclidean, so
`q.num / q.den` is floor division for the positive denominator). -/
def qfloor (q : ℚ) : ℤ := q.num / (q.den : ℤ)

theorem qfloor_eq (q : ℚ) : qfloor q = ⌊q⌋ := by
  rw [qfloor]
  conv_rhs => rw [← Rat.num_div_den q]
  rw [Rat.floor_intCast_div_natCast]

/-- Round-half-to-even to an integer, the rounding mode of Python `round`. -/
def rhe (q : ℚ) : ℤ :=
  if q - (qfloor q : ℚ) < 1 / 2 then qfloor q
  else if 1 / 2 < q - (qfloor q : ℚ) then qfloor q + 1
  else if qfloor q % 2 = 0 then qfloor q else qfloor q + 1

/-- Python `round(x, 3)` in the exact-rational model. -/
def pyRound3 (q : ℚ) : ℚ := (rhe (q * 1000) : ℚ) / 1000

theorem rhe_ge_floor (q : ℚ) : ⌊q⌋ ≤ rhe q := by
  simp only [rhe, qfloor_eq]
  split
  · exact le_refl _
  · split
    · exact le_of_lt (lt_add_one _)
    · split
      · exact le_refl _
      · exact le_of_lt (lt_add_one _)

theorem rhe_nonneg {q : ℚ} (h : 0 ≤ q) : 0 ≤ rhe q :=
  le_trans (Int.le_floor.mpr (by exact_mod_cast h)) (rhe_ge_floor q)

theorem rhe_le_int {q : ℚ} {n : ℤ} (h : q ≤ (n : ℚ)) : rhe q ≤ n := by
  have hfl : ⌊q⌋ ≤ n := by
    have h0 : (⌊q⌋ : ℚ) ≤ (n : ℚ) := le_trans (Int.floor_le q) h
    exact_mod_cast h0
  simp only [rhe, qfloor_eq]
  split
  · exact hfl
  · rename_i h1
    push_neg at h1
    have hq : (⌊q⌋ : ℚ) < q := by
      have : (0 : ℚ) < 1 / 2 := by norm_num
      nlinarith [h1]
    have : ⌊q⌋ < n := by
      by_contra hc
      push_neg at hc
      have : (n : ℚ) ≤ (⌊q⌋ : ℚ) := by exact_mod_cast hc
      linarith
    have h2 : ⌊q⌋ + 1 ≤ n := this
    split
    · exact h2
    · split
      · exact hfl
      · exact h2

theorem pyRound3_nonneg {q : ℚ} (h : 0 ≤ q) : 0 ≤ pyRound3 q := by
  unfold pyRound3
  have : (0 : ℤ) ≤ rhe (q * 1000) := rhe_nonneg (by positivity)
  have : (0 : ℚ) ≤ (rhe (q * 1000) : ℚ) := by exact_mod_cast this
  positivity

theorem pyRound3_le_one {q : ℚ} (h : q ≤ 1) : pyRound3 q ≤ 1 := by
  unfold pyRound3
  have h1 : q * 1000 ≤ ((1000 : ℤ) : ℚ) := by push_cast; linarith
  have h2 : rhe (q * 1000) ≤ 1000 := rhe_le_int h1
  have h3 : (rhe (q * 1000) : ℚ) ≤ 1000 := by exact_mod_cast h2
  linarith

theorem pyRound3_mem {q : ℚ} (h0 : 0 ≤ q) (h1 : q ≤ 1) :
    0 ≤ pyRound3 q ∧ pyRound3 q ≤ 1 :=
  ⟨pyRound3_nonneg h0, pyRound3_le_one h1⟩

/-! ## Job matching engine: data model (`job_matching_engine.py`)

Candidate and job records are the dict shapes consumed by
`SemanticJobMatchingEngine`.  A skill's `name` is accessed by subscript in
the source (`skill['name']`) and may therefore raise `KeyError`; it is an
`Option` field.  Keys read with `.get(..., default)` are plain fields whose
empty value stands for the default. -/

/-- Skill record of a candidate's `skills` list or a job's `required_skills`
list. -/
structure MSkill where
  name : Option Str
  category : Option Str
  proficiency_level : Option Str
deriving DecidableEq, Repr

/-- Work-experience record consumed by the engine. -/
structure MExp where
  job_title : Str
  company : Str
  duration : Str
  description : Str
deriving DecidableEq, Repr

/-- Education record consumed by the engine. -/
structure MEdu where
  degree : Str
  field_of_study : Str
deriving DecidableEq, Repr

/-- Candidate record consumed by the engine. -/
structure MCand where
  id : ℤ
  full_name : Str
  email : Str
  location : Str
  summary : Str
  skills : List MSkill
  work_experience : List MExp
  education : List MEdu
  domain_expertise : List Str
deriving DecidableEq, Repr

/-- Job `experience_requirements` sub-record. -/
structure ExpReq where
  min_years : ℚ
  max_years : ℚ
  level : Str
deriving DecidableEq, Repr

/-- Job record consumed by the engine. -/
structure MJob where
  id : ℤ
  title : Str
  company : Str
  location : Str
  industry : Str
  description : Str
  requirements : Str
  remote_ok : Bool
  experience_requirements : Option ExpReq
  required_skills : List MSkill
deriving DecidableEq, Repr

/-- The engine's `skill_weights` table; `.get(category, 0.7)`. -/
def skillWeights (category : Str) : ℚ :=
  if category = S "programming_languages" then 1.0
  else if category = S "web_development" then 0.9
  else if category = S "data_science" then 0.95
  else if category = S "databases" then 0.8
  else if category = S "cloud_technologies" then 0.85
  else if category = S "mobile_development" then 0.8
  else if category = S "design" then 0.7
  else if category = S "project_management" then 0.75
  else if category = S "soft_skills" then 0.6
  else if category = S "cybersecurity" then 0.9
  else if category = S "devops" then 0.85
  else 0.7

/-- The engine's `experience_levels` table; `.get(level, 2)`. -/
def experienceLevels (level : Str) : ℤ :=
  if level = S "entry" then 0
  else if level = S "junior" then 1
  else if level = S "mid" then 2
  else if level = S "senior" then 3
  else if level = S "lead" then 4
  else if level = S "principal" then 5
  else if level = S "director" then 6
  else 2

/-- The `level_scores` table of `_calculate_skill_level_match`;
`.get(level, 2)`. -/
def levelScores (level : Str) : ℤ :=
  if level = S "beginner" then 1
  else if level = S "intermediate" then 2
  else if level = S "advanced" then 3
  else if level = S "expert" then 4
  else 2

/-- The engine's `domain_compatibility` table; `.get(domain, [])`. -/
def domainCompat (d : Str) : List Str :=
  if d = S "technology" then
    [S "technology", S "finance", S "healthcare", S "education", S "e-commerce"]
  else if d = S "finance" then [S "finance", S "banking", S "technology", S "consulting"]
  else if d = S "healthcare" then [S "healthcare", S "technology", S "consulting"]
  else if d = S "education" then [S "education", S "technology", S "government"]
  else if d = S "retail" then [S "retail", S "e-commerce", S "technology"]
  else if d = S "manufacturing" then [S "manufacturing", S "technology", S "consulting"]
  else if d = S "consulting" then
    [S "consulting", S "technology", S "finance", S "healthcare"]
  else if d = S "government" then [S "government", S "technology", S "defense"]
  else if d = S "defense" then [S "defense", S "government", S "technology"]
  else if d = S "banking" then [S "banking", S "finance", S "technology"]
  else if d = S "automobile" then [S "automobile", S "manufacturing", S "technology"]
  else if d = S "e-commerce" then [S "e-commerce", S "retail", S "technology"]
  else []

/-! ## Duration parsing (`_parse_duration_to_years`)

The three regular expressions of the source are implemented as scanning
matchers.  Each pattern's greedy `\d+`/`\.\d+` pieces never need
backtracking because the character that must follow them (`.`/whitespace/a
letter/a dash) is never a digit; `re.search` semantics therefore reduce to
trying each start position left to right. -/

/-- Value of `float(group)` for a digit string with optional fractional
digit string. -/
def qOfDec (ds : Str) (frac : Option Str) : ℚ :=
  (digitsVal ds : ℚ) +
    (match frac with
     | none => 0
     | some fs => (digitsVal fs : ℚ) / ((10 : ℚ) ^ fs.length))

/-- Try `(\d+(?:\.\d+)?)\s*(?:year|yr)` anchored at the start of `s`. -/
def yearAt (s : Str) : Option ℚ :=
  let ds := s.takeWhile Char.isDigit
  if ds = [] then none
  else
    let rest := s.drop ds.length
    let fr : Option Str × Str :=
      match rest with
      | '.' :: r =>
        let fs := r.takeWhile Char.isDigit
        if fs = [] then (none, rest) else (some fs, r.drop fs.length)
      | _ => (none, rest)
    let rest3 := fr.2.dropWhile pyIsSpace
    if strPre (S "year") rest3 || strPre (S "yr") rest3 then some (qOfDec ds fr.1)
    else none

/-- Try `(\d+)\s*(?:month|mo)` anchored at the start of `s`. -/
def monthAt (s : Str) : Option ℚ :=
  let ds := s.takeWhile Char.isDigit
  if ds = [] then none
  else
    let rest3 := (s.drop ds.length).dropWhile pyIsSpace
    if strPre (S "month") rest3 || strPre (S "mo") rest3 then some (digitsVal ds : ℚ)
    else none

/-- Dash characters of the source's range pattern.  The pattern literal
contains a mojibake-encoded en dash, so the class holds the characters
`-`, `â`, `€`, `“`. -/
def dashChars : Str := ['-', 'â', '€', '“']

/-- Try `(\d{4})\s*[-â€“]\s*(\d{4}|present|current)` anchored at the start
of `s`; `year` is `datetime.now().year`, used for `present`/`current`. -/
def rangeAt (year : ℕ) (s : Str) : Option ℚ :=
  let d4 := s.take 4
  if d4.length = 4 ∧ d4.all Char.isDigit then
    let rest := (s.drop 4).dropWhile pyIsSpace
    match rest with
    | c :: r =>
      if c ∈ dashChars then
        let r2 := r.dropWhile pyIsSpace
        let e4 := r2.take 4
        if e4.length = 4 ∧ e4.all Char.isDigit then
          some (max 0 ((digitsVal e4 : ℤ) - (digitsVal d4 : ℤ)) : ℤ)
        else if strPre (S "present") r2 || strPre (S "current") r2 then
          some (max 0 ((year : ℤ) - (digitsVal d4 : ℤ)) : ℤ)
        else none
      else none
    | [] => none
  else none

/-- Leftmost-match scan of `re.search`: try the matcher at every suffix,
left to right. -/
def scanFor (f : Str → Option ℚ) : Str → Option ℚ
  | [] => none
  | x :: xs =>
    match f (x :: xs) with
    | some v => some v
    | none => scanFor f xs

/-- Embedding of `_parse_duration_to_years`; `year` is
`datetime.now().year`. -/
def parseDurationToYears (year : ℕ) (duration : Str) : ℚ :=
  if duration = [] then 0.0
  else
    let d := toLowerStr duration
    match scanFor yearAt d with
    | some q => q
    | none =>
      match scanFor monthAt d with
      | some m => m / 12
      | none =>
        match scanFor (rangeAt year) d with
        | some y => y
        | none => 1.0

/-- Embedding of `_calculate_years_of_experience`. -/
def calcYears (year : ℕ) (experience : List MExp) : ℚ :=
  experience.foldl (fun acc e => acc + parseDurationToYears year e.duration) 0.0

/-- Embedding of `_determine_experience_level`. -/
def determineLevel (years : ℚ) : Str :=
  if years < 1 then S "entry"
  else if years < 3 then S "junior"
  else if years < 6 then S "mid"
  else if years < 10 then S "senior"
  else if years < 15 then S "lead"
  else S "principal"

/-! ## Engine component scorers -/

/-- A matched-skill record of `_calculate_skill_match`. -/
structure MatchedSkill where
  name : Str
  candidate_level : Str
  required_level : Str
  match_score : ℚ
  weighted_score : ℚ
  category : Str
deriving DecidableEq, Repr

/-- A missing-skill record of `_calculate_skill_match`. -/
structure MissingSkill where
  name : Str
  required_level : Str
  category : Str
deriving DecidableEq, Repr

/-- Result dict of `_calculate_skill_match`.  The field `coverage` models
the source key `coverage_ratio`; keys absent on the insufficient-data or
error paths are modelled by empty defaults. -/
structure SkillBreak where
  score : ℚ
  matched_skills : List MatchedSkill
  missing_skills : List MissingSkill
  coverage : ℚ
  details : Str
  error : Option Str
deriving DecidableEq, Repr

/-- Embedding of `_calculate_skill_level_match` (total for well-formed
records, so the `except` branch returning 0.5 is unreachable). -/
def calcSkillLevelMatch (cs js : MSkill) : ℚ :=
  let c := levelScores (toLowerStr (cs.proficiency_level.getD (S "intermediate")))
  let r := levelScores (toLowerStr (js.proficiency_level.getD (S "intermediate")))
  if r ≤ c then 1.0 else max 0.0 (1.0 - ((r - c : ℤ) : ℚ) * 0.25)

/-- Insert into a Python dict modelled as an association list: an existing
key keeps its position and is overwritten, a new key is appended. -/
def dictInsert (d : List (Str × MSkill)) (k : Str) (v : MSkill) : List (Str × MSkill) :=
  if (d.lookup k).isSome then d.map (fun p => if p.1 = k then (k, v) else p)
  else d ++ [(k, v)]

/-- Worker for `buildSkillDict`. -/
def buildSkillDictA (acc : List (Str × MSkill)) : List MSkill → Except Str (List (Str × MSkill))
  | [] => .ok acc
  | s :: rest =>
    match s.name with
    | none => .error (S "KeyError: name")
    | some n => buildSkillDictA (dictInsert acc (toLowerStr n) s) rest

/-- The dict comprehension `{skill['name'].lower(): skill for skill in l}`;
raises `KeyError` when a skill record lacks the `name` key. -/
def buildSkillDict (l : List MSkill) : Except Str (List (Str × MSkill)) :=
  buildSkillDictA [] l

/-- The per-required-skill loop of `_calculate_skill_match`: returns the
matched-skill records, the missing-skill records and the weighted scores,
in iteration order. -/
def skillLoop (cdict : List (Str × MSkill)) :
    List (Str × MSkill) → List MatchedSkill × List MissingSkill × List ℚ
  | [] => ([], [], [])
  | (jname, js) :: rest =>
    let t := skillLoop cdict rest
    match cdict.lookup jname with
    | some cs =>
      let sm := calcSkillLevelMatch cs js
      let category := replaceChar ' ' '_' (toLowerStr (js.category.getD (S "technical")))
      let w := skillWeights category
      ({ name := pyTitle jname,
         candidate_level := cs.proficiency_level.getD (S "unknown"),
         required_level := js.proficiency_level.getD (S "intermediate"),
         match_score := sm, weighted_score := sm * w, category := category } :: t.1,
       t.2.1, (sm * w) :: t.2.2)
    | none =>
      (t.1,
       { name := pyTitle jname,
         required_level := js.proficiency_level.getD (S "intermediate"),
         category := js.category.getD (S "technical") } :: t.2.1,
       t.2.2)

/-- Arithmetic mean (`np.mean`). -/
def listMean (l : List ℚ) : ℚ := l.sum / (l.length : ℚ)

/-- Body of `_calculate_skill_match` inside its `try`; an exception is an
`Except.error`. -/
def calcSkillMatchCore (c : MCand) (j : MJob) : Except Str SkillBreak :=
  if c.skills = [] ∨ j.required_skills = [] then
    .ok { score := 0.0, matched_skills := [], missing_skills := [], coverage := 0.0,
          details := S "Insufficient skill data", error := none }
  else
    match buildSkillDict c.skills with
    | .error e => .error e
    | .ok cdict =>
      match buildSkillDict j.required_skills with
      | .error e => .error e
      | .ok jdict =>
        let t := skillLoop cdict jdict
        let overall : ℚ :=
          if t.2.2 ≠ [] then
            listMean t.2.2 * ((t.1.length : ℚ) / (j.required_skills.length : ℚ))
          else 0.0
        .ok { score := pyRound3 overall, matched_skills := t.1, missing_skills := t.2.1,
              coverage := pyRound3 ((t.1.length : ℚ) / (j.required_skills.length : ℚ)),
              details := natToStr t.1.length ++ S "/" ++ natToStr j.required_skills.length
                           ++ S " skills matched",
              error := none }

/-- Error dict `{'score': 0.0, 'error': str(e)}` of the `except` branch. -/
def skillErrResult (e : Str) : SkillBreak :=
  { score := 0.0, matched_skills := [], missing_skills := [], coverage := 0.0,
    details := [], error := some e }

/-- Embedding of `_calculate_skill_match` (body plus exception handler). -/
def calcSkillMatch (c : MCand) (j : MJob) : SkillBreak :=
  match calcSkillMatchCore c j with
  | .ok b => b
  | .error e => skillErrResult e

/-- Result dict of `_calculate_experience_match`. -/
structure ExpBreak where
  score : ℚ
  candidate_years : ℚ
  required_years : ℚ
  candidate_level : Str
  required_level : Str
  years_score : ℚ
  level_score : ℚ
  industry_score : ℚ
  details : Str
  error : Option Str
deriving DecidableEq, Repr

/-- `job.get('experience_requirements', {}).get('min_years', 0)`. -/
def reqMinYears (j : MJob) : ℚ := (j.experience_requirements.map ExpReq.min_years).getD 0

/-- `job.get('experience_requirements', {}).get('max_years', 20)`. -/
def reqMaxYears (j : MJob) : ℚ := (j.experience_requirements.map ExpReq.max_years).getD 20

/-- `job.get('experience_requirements', {}).get('level', 'mid')`. -/
def reqLevel (j : MJob) : Str := (j.experience_requirements.map ExpReq.level).getD (S "mid")

/-- Years-score branch of `_calculate_experience_match`. -/
def yearsScore (years rmin rmax : ℚ) : ℚ :=
  if rmin ≤ years then
    if years ≤ rmax then 1.0 else max 0.7 (1.0 - (years - rmax) * 0.05)
  else max 0.0 (1.0 - (rmin - years) * 0.15)

/-- Embedding of `_calculate_level_match`. -/
def calcLevelMatch (cl rl : Str) : ℚ :=
  let c := experienceLevels cl
  let r := experienceLevels rl
  if r ≤ c then
    if c - r ≤ 1 then 1.0 else max 0.7 (1.0 - ((c - r - 1 : ℤ) : ℚ) * 0.1)
  else max 0.0 (1.0 - ((r - c : ℤ) : ℚ) * 0.2)

/-- Embedding of `_calculate_industry_experience_match`. -/
def calcIndustryMatch (experience : List MExp) (jobIndustry : Str) : ℚ :=
  if jobIndustry = [] ∨ experience = [] then 0.5
  else
    let ind := toLowerStr jobIndustry
    let m := (experience.filter
      (fun e => substr ind (toLowerStr (e.description ++ S " " ++ e.company)))).length
    if 0 < m then min 1.0 ((m : ℚ) / (experience.length : ℚ) + 0.3) else 0.3

/-- Embedding of `_calculate_experience_match`. -/
def calcExperienceMatch (year : ℕ) (c : MCand) (j : MJob) : ExpBreak :=
  let years := calcYears year c.work_experience
  let rmin := reqMinYears j
  let rmax := reqMaxYears j
  let clevel := determineLevel years
  let rlevel := reqLevel j
  let ys := yearsScore years rmin rmax
  let ls := calcLevelMatch clevel rlevel
  let ins := calcIndustryMatch c.work_experience j.industry
  { score := pyRound3 (ys * 0.4 + ls * 0.4 + ins * 0.2),
    candidate_years := years, required_years := rmin,
    candidate_level := clevel, required_level := rlevel,
    years_score := pyRound3 ys, level_score := pyRound3 ls, industry_score := pyRound3 ins,
    details := fmtQ years ++ S " years experience (" ++ clevel ++ S " level)",
    error := none }

/-- Result dict of `_calculate_domain_match`. -/
structure DomBreak where
  score : ℚ
  match_type : Option Str
  matched_domain : Option Str
  details : Str
  error : Option Str
deriving DecidableEq, Repr

/-- Embedding of `_calculate_domain_match`. -/
def calcDomainMatch (c : MCand) (j : MJob) : DomBreak :=
  let jd := toLowerStr j.industry
  if c.domain_expertise = [] ∨ jd = [] then
    { score := 0.5, match_type := none, matched_domain := none,
      details := S "Insufficient domain data", error := none }
  else if jd ∈ c.domain_expertise.map toLowerStr then
    { score := 1.0, match_type := some (S "direct"), matched_domain := some jd,
      details := S "Direct domain match: " ++ jd, error := none }
  else
    match c.domain_expertise.find? (fun d => toLowerStr d ∈ domainCompat jd) with
    | some d =>
      { score := 0.7, match_type := some (S "compatible"), matched_domain := some d,
        details := S "Compatible domain: " ++ d ++ S " -> " ++ jd, error := none }
    | none =>
      { score := 0.3, match_type := some (S "none"), matched_domain := none,
        details := S "No domain expertise match", error := none }

/-- Result dict of `_calculate_location_match`. -/
structure LocBreak where
  score : ℚ
  match_type : Option Str
  details : Str
  error : Option Str
deriving DecidableEq, Repr

/-- Embedding of `_locations_compatible`. -/
def locationsCompatible (l1 l2 : Str) : Bool :=
  (wordsOf (replaceChar ',' ' ' l1)).any (fun w => w ∈ wordsOf (replaceChar ',' ' ' l2))

/-- Embedding of `_calculate_location_match`. -/
def calcLocationMatch (c : MCand) (j : MJob) : LocBreak :=
  let cl := toLowerStr c.location
  let jl := toLowerStr j.location
  if j.remote_ok then
    { score := 1.0, match_type := some (S "remote"),
      details := S "Remote work available", error := none }
  else if cl = [] ∨ jl = [] then
    { score := 0.5, match_type := none, details := S "Insufficient location data",
      error := none }
  else if cl = jl then
    { score := 1.0, match_type := some (S "exact"),
      details := S "Exact location match: " ++ jl, error := none }
  else if locationsCompatible cl jl then
    { score := 0.8, match_type := some (S "compatible"),
      details := S "Compatible locations: " ++ cl ++ S " / " ++ jl, error := none }
  else
    { score := 0.2, match_type := some (S "different"),
      details := S "Different locations: " ++ cl ++ S " / " ++ jl, error := none }

/-- State of the engine's fitted scikit-learn TF-IDF models.  The
`transform`/`cosine_similarity` call is external; `cos a b = none` models
an unfitted or raising transform (the source then falls back to keyword
similarity), and a returned cosine of two nonnegative TF-IDF vectors lies
in `[0, 1]`, recorded as the contract fields. -/
structure TfidfModel where
  fitted : Bool
  cos : Str → Str → Option ℚ
  cos_nonneg : ∀ a b q, cos a b = some q → 0 ≤ q
  cos_le_one : ∀ a b q, cos a b = some q → q ≤ 1

/-- Embedding of `_prepare_candidate_text`. -/
def prepCandText (c : MCand) : Str :=
  joinSp ((if c.summary ≠ [] then [c.summary] else []) ++
    (c.work_experience.foldr (fun e acc =>
      (if e.description ≠ [] then [e.description] else []) ++
      (if e.job_title ≠ [] then [e.job_title] else []) ++ acc) []) ++
    c.skills.map (fun s => s.name.getD []) ++
    (c.education.foldr (fun e acc =>
      (if e.field_of_study ≠ [] then [e.field_of_study] else []) ++
      (if e.degree ≠ [] then [e.degree] else []) ++ acc) []))

/-- Embedding of `_prepare_job_text`. -/
def prepJobText (j : MJob) : Str :=
  joinSp ((if j.title ≠ [] then [j.title] else []) ++
    (if j.description ≠ [] then [j.description] else []) ++
    (if j.requirements ≠ [] then [j.requirements] else []) ++
    j.required_skills.map (fun s => s.name.getD []) ++
    (if j.industry ≠ [] then [j.industry] else []))

/-- Stop words removed by `_calculate_keyword_similarity`. -/
def stopWords : List Str :=
  [S "the", S "and", S "or", S "but", S "in", S "on", S "at", S "to", S "for",
   S "of", S "with", S "by"]

/-- Stop-word-filtered token set of a text. -/
def tokenSet (t : Str) : Finset Str :=
  ((wordsOf (toLowerStr t)).filter (fun w => w ∉ stopWords)).toFinset

/-- Embedding of `_calculate_keyword_similarity` (Jaccard overlap). -/
def keywordSimilarity (t1 t2 : Str) : ℚ :=
  let w1 := tokenSet t1
  let w2 := tokenSet t2
  if w1 = ∅ ∨ w2 = ∅ then 0.0
  else
    let uni := w1 ∪ w2
    if uni ≠ ∅ then ((w1 ∩ w2).card : ℚ) / (uni.card : ℚ) else 0.0

/-- Result dict of `_calculate_semantic_match`. -/
structure SemBreak where
  score : ℚ
  method : Option Str
  details : Str
  error : Option Str
deriving DecidableEq, Repr

/-- Embedding of `_calculate_semantic_match`. -/
def calcSemanticMatch (m : TfidfModel) (c : MCand) (j : MJob) : SemBreak :=
  let ct := prepCandText c
  let jt := prepJobText j
  if ct = [] ∨ jt = [] then
    { score := 0.0, method := none, details := S "Insufficient text data", error := none }
  else
    match (if m.fitted then m.cos ct jt else none) with
    | some sim =>
      { score := pyRound3 sim, method := some (S "tfidf_cosine"),
        details := S "TF-IDF cosine similarity: " ++ fmtQ sim, error := none }
    | none =>
      let sim := keywordSimilarity ct jt
      { score := pyRound3 sim, method := some (S "keyword_based"),
        details := S "Keyword-based similarity: " ++ fmtQ sim, error := none }

/-- Candidate-side completeness sum of `_calculate_confidence`. -/
def candCompleteness (c : MCand) : ℚ :=
  (if c.full_name ≠ [] then 0.1 else 0) + (if c.email ≠ [] then 0.1 else 0) +
  (if c.skills ≠ [] then 0.3 else 0) + (if c.work_experience ≠ [] then 0.3 else 0) +
  (if c.education ≠ [] then 0.1 else 0) + (if c.summary ≠ [] then 0.1 else 0)

/-- Job-side completeness sum of `_calculate_confidence`. -/
def jobCompleteness (j : MJob) : ℚ :=
  (if j.title ≠ [] then 0.2 else 0) + (if j.description ≠ [] then 0.3 else 0) +
  (if j.required_skills ≠ [] then 0.3 else 0) +
  (if j.experience_requirements.isSome then 0.1 else 0) +
  (if j.location ≠ [] then 0.1 else 0)

/-- Embedding of `_calculate_confidence`. -/
def calcConfidence (c : MCand) (j : MJob) : ℚ :=
  (candCompleteness c + jobCompleteness j) / 2

/-- Embedding of `_generate_match_reasons`. -/
def genMatchReasons (sk : SkillBreak) (ex : ExpBreak) (dm : DomBreak) : List Str :=
  let r1 :=
    if (0.7 : ℚ) < sk.score then
      [S "Strong skill match with " ++ natToStr sk.matched_skills.length
        ++ S " relevant skills"]
    else []
  let r2 :=
    if (0.7 : ℚ) < ex.score then
      [S "Good experience match with " ++ fmtQ ex.candidate_years ++ S " years ("
        ++ ex.candidate_level ++ S " level)"]
    else []
  let r3 :=
    if (0.7 : ℚ) < dm.score then
      if dm.match_type = some (S "direct") then [S "Direct industry experience match"]
      else if dm.match_type = some (S "compatible") then
        [S "Compatible industry background"]
      else []
    else []
  let rs := r1 ++ r2 ++ r3
  if rs = [] then [S "Partial match based on available criteria"] else rs

/-- Component weight for skills. -/
def wSkills : ℚ := 0.35

/-- Component weight for experience. -/
def wExperience : ℚ := 0.25

/-- Component weight for domain. -/
def wDomain : ℚ := 0.15

/-- Component weight for location. -/
def wLocation : ℚ := 0.10

/-- Component weight for semantic similarity. -/
def wSemantic : ℚ := 0.15

/-- Result of `calculate_match_score`.  `calculated_at` receives
`datetime.now().isoformat()`, passed as the `nowIso` parameter. -/
structure MatchOut where
  overall_score : ℚ
  confidence : ℚ
  skills : SkillBreak
  experience : ExpBreak
  domain : DomBreak
  location : LocBreak
  semantic : SemBreak
  match_reasons : List Str
  calculated_at : Str
deriving DecidableEq, Repr

/-- Embedding of `calculate_match_score`.  `year` is `datetime.now().year`
(used for `present` date ranges) and `nowIso` is
`datetime.now().isoformat()`. -/
def calcMatchScore (m : TfidfModel) (year : ℕ) (nowIso : Str) (c : MCand) (j : MJob) :
    MatchOut :=
  let sk := calcSkillMatch c j
  let ex := calcExperienceMatch year c j
  let dm := calcDomainMatch c j
  let lc := calcLocationMatch c j
  let sm := calcSemanticMatch m c j
  { overall_score := pyRound3 (sk.score * wSkills + ex.score * wExperience +
      dm.score * wDomain + lc.score * wLocation + sm.score * wSemantic),
    confidence := pyRound3 (calcConfidence c j),
    skills := sk, experience := ex, domain := dm, location := lc, semantic := sm,
    match_reasons := genMatchReasons sk ex dm,
    calculated_at := nowIso }

/-! ## Ranking (`find_best_matches`, `find_best_candidates`)

Python `list.sort(key=k, reverse=True)` is a stable descending sort; it is
modelled by insertion sort where an element is placed before the first
already-sorted element whose key is less than or equal to its own (equal
keys keep input order). -/

/-- Stable descending insertion for `isortDesc`. -/
def insDesc (le : α → α → Bool) (x : α) : List α → List α
  | [] => [x]
  | y :: ys => if le y x then x :: y :: ys else y :: insDesc le x ys

/-- Stable descending insertion sort modelling
`list.sort(key=k, reverse=True)` for the Boolean key order `le`. -/
def isortDesc (le : α → α → Bool) (l : List α) : List α := l.foldr (insDesc le) []

/-- Entry of the list built by `find_best_matches`. -/
structure JobMatch where
  job_id : ℤ
  job_title : Str
  company : Str
  location : Str
  match_score : ℚ
  confidence : ℚ
  match_breakdown : SkillBreak × ExpBreak × DomBreak × LocBreak × SemBreak
  match_reasons : List Str
  job_data : MJob
deriving DecidableEq, Repr

/-- One iteration of the loop of `find_best_matches`: the entry appended
for a job whose overall score is positive, `none` otherwise. -/
def jobMatchEntry (m : TfidfModel) (year : ℕ) (nowIso : Str) (c : MCand) (j : MJob) :
    Option JobMatch :=
  let r := calcMatchScore m year nowIso c j
  if 0 < r.overall_score then
    some { job_id := j.id, job_title := j.title, company := j.company,
           location := j.location, match_score := r.overall_score,
           confidence := r.confidence,
           match_breakdown := (r.skills, r.experience, r.domain, r.location, r.semantic),
           match_reasons := r.match_reasons, job_data := j }
  else none

/-- The sorted match list of `find_best_matches` before the `[:limit]`
slice. -/
def sortedJobMatches (m : TfidfModel) (year : ℕ) (nowIso : Str) (c : MCand)
    (jobs : List MJob) : List JobMatch :=
  isortDesc (fun a b => decide (a.match_score ≤ b.match_score))
    (jobs.filterMap (jobMatchEntry m year nowIso c))

/-- Embedding of `find_best_matches`: score every job, keep entries with
positive overall score, sort stably by descending match score, return the
first `limit`. -/
def findBestMatches (m : TfidfModel) (year : ℕ) (nowIso : Str) (c : MCand)
    (jobs : List MJob) (limit : ℕ) : List JobMatch :=
  (sortedJobMatches m year nowIso c jobs).take limit

/-- Entry of the list built by `find_best_candidates`. -/
structure CandMatch where
  candidate_id : ℤ
  candidate_name : Str
  email : Str
  experience_years : ℚ
  top_skills : List (Option Str)
  match_score : ℚ
  confidence : ℚ
  match_breakdown : SkillBreak × ExpBreak × DomBreak × LocBreak × SemBreak
  match_reasons : List Str
  candidate_data : MCand
deriving DecidableEq, Repr

/-- One iteration of the loop of `find_best_candidates`. -/
def candMatchEntry (m : TfidfModel) (year : ℕ) (nowIso : Str) (j : MJob) (c : MCand) :
    Option CandMatch :=
  let r := calcMatchScore m year nowIso c j
  if 0 < r.overall_score then
    some { candidate_id := c.id, candidate_name := c.full_name, email := c.email,
           experience_years := calcYears year c.work_experience,
           top_skills := (c.skills.take 5).map MSkill.name,
           match_score := r.overall_score, confidence := r.confidence,
           match_breakdown := (r.skills, r.experience, r.domain, r.location, r.semantic),
           match_reasons := r.match_reasons, candidate_data := c }
  else none

/-- The sorted match list of `find_best_candidates` before the `[:limit]`
slice. -/
def sortedCandMatches (m : TfidfModel) (year : ℕ) (nowIso : Str) (j : MJob)
    (cands : List MCand) : List CandMatch :=
  isortDesc (fun a b => decide (a.match_score ≤ b.match_score))
    (cands.filterMap (candMatchEntry m year nowIso j))

/-- Embedding of `find_best_candidates`. -/
def findBestCandidates (m : TfidfModel) (year : ℕ) (nowIso : Str) (j : MJob)
    (cands : List MCand) (limit : ℕ) : List CandMatch :=
  (sortedCandMatches m year nowIso j cands).take limit

theorem insDesc_perm (key : α → ℚ) (x : α) (l : List α) :
    List.Perm (insDesc (fun a b => decide (key a ≤ key b)) x l) (x :: l) := by
  induction l with
  | nil => exact List.Perm.refl _
  | cons y ys ih =>
    unfold insDesc
    split
    · exact List.Perm.refl _
    · exact (List.Perm.cons y ih).trans (List.Perm.swap x y ys)

theorem isortDesc_perm (key : α → ℚ) (l : List α) :
    List.Perm (isortDesc (fun a b => decide (key a ≤ key b)) l) l := by
  induction l with
  | nil => exact List.Perm.refl _
  | cons x xs ih =>
    have h1 : isortDesc (fun a b => decide (key a ≤ key b)) (x :: xs)
        = insDesc (fun a b => decide (key a ≤ key b)) x
            (isortDesc (fun a b => decide (key a ≤ key b)) xs) := rfl
    rw [h1]
    exact (insDesc_perm key x _).trans (List.Perm.cons x ih)

theorem insDesc_pairwise (key : α → ℚ) (x : α) (l : List α)
    (hl : l.Pairwise (fun a b => key b ≤ key a)) :
    (insDesc (fun a b => decide (key a ≤ key b)) x l).Pairwise
      (fun a b => key b ≤ key a) := by
  induction l with
  | nil => simp [insDesc]
  | cons y ys ih =>
    unfold insDesc
    rcases List.pairwise_cons.mp hl with ⟨hy, hys⟩
    split
    · rename_i hle
      have hyx : key y ≤ key x := of_decide_eq_true hle
      refine List.pairwise_cons.mpr ⟨?_, hl⟩
      intro z hz
      rcases List.mem_cons.mp hz with h | h
      · exact h ▸ hyx
      · exact (hy z h).trans hyx
    · rename_i hgt
      have hxy : key x < key y := by
        have := of_decide_eq_false (Bool.of_not_eq_true hgt)
        exact lt_of_not_le this
      refine List.pairwise_cons.mpr ⟨?_, ih hys⟩
      intro z hz
      have hz' : z ∈ x :: ys := (insDesc_perm key x ys).mem_iff.mp hz
      rcases List.mem_cons.mp hz' with h | h
      · exact h ▸ le_of_lt hxy
      · exact hy z h

theorem isortDesc_pairwise (key : α → ℚ) (l : List α) :
    (isortDesc (fun a b => decide (key a ≤ key b)) l).Pairwise
      (fun a b => key b ≤ key a) := by
  induction l with
  | nil => simp [isortDesc]
  | cons x xs ih => exact insDesc_pairwise key x _ ih

theorem insDesc_lex (key : α → ℚ) (g : α → ℤ) (x : α) (l : List α)
    (hl : l.Pairwise (fun a b => key b < key a ∨ (key a = key b ∧ g a < g b)))
    (hx : ∀ y ∈ l, g x < g y) :
    (insDesc (fun a b => decide (key a ≤ key b)) x l).Pairwise
      (fun a b => key b < key a ∨ (key a = key b ∧ g a < g b)) := by
  induction l with
  | nil => simp [insDesc]
  | cons y ys ih =>
    unfold insDesc
    rcases List.pairwise_cons.mp hl with ⟨hy, hys⟩
    split
    · rename_i hle
      have hyx : key y ≤ key x := of_decide_eq_true hle
      refine List.pairwise_cons.mpr ⟨?_, hl⟩
      intro z hz
      rcases List.mem_cons.mp hz with h | h
      · subst h
        rcases lt_or_eq_of_le hyx with hlt | heq
        · exact Or.inl hlt
        · exact Or.inr ⟨heq.symm, hx z (List.mem_cons_self _ _)⟩
      · have hkz : key z ≤ key y := by
          rcases hy z h with h1 | h1
          · exact le_of_lt h1
          · exact le_of_eq h1.1.symm
        have hkzx : key z ≤ key x := hkz.trans hyx
        rcases lt_or_eq_of_le hkzx with hlt | heq
        · exact Or.inl hlt
        · exact Or.inr ⟨heq.symm, hx z (List.mem_cons_of_mem _ h)⟩
    · rename_i hgt
      have hxy : key x < key y := by
        have := of_decide_eq_false (Bool.of_not_eq_true hgt)
        exact lt_of_not_le this
      refine List.pairwise_cons.mpr ⟨?_, ih hys (fun z hz => hx z (List.mem_cons_of_mem _ hz))⟩
      intro z hz
      have hz' : z ∈ x :: ys := (insDesc_perm key x ys).mem_iff.mp hz
      rcases List.mem_cons.mp hz' with h | h
      · exact h ▸ Or.inl hxy
      · exact hy z h

theorem isortDesc_lex (key : α → ℚ) (g : α → ℤ) (l : List α)
    (h : l.Pairwise (fun a b => g a < g b)) :
    (isortDesc (fun a b => decide (key a ≤ key b)) l).Pairwise
      (fun a b => key b < key a ∨ (key a = key b ∧ g a < g b)) := by
  induction l with
  | nil => simp [isortDesc]
  | cons x xs ih =>
    rcases List.pairwise_cons.mp h with ⟨hx, hxs⟩
    refine insDesc_lex key g x _ (ih hxs) ?_
    intro y hy
    exact hx y ((isortDesc_perm key xs).mem_iff.mp hy)


/-! ## Boundedness lemmas for the engine components -/

theorem calcSkillLevelMatch_mem (cs js : MSkill) :
    0 ≤ calcSkillLevelMatch cs js ∧ calcSkillLevelMatch cs js ≤ 1 := by
  simp only [calcSkillLevelMatch]
  split
  · norm_num
  · rename_i h
    push_neg at h
    constructor
    · exact le_max_of_le_left (by norm_num)
    · apply max_le (by norm_num)
      have h1 : (1 : ℤ) ≤ levelScores (toLowerStr (js.proficiency_level.getD (S "intermediate")))
          - levelScores (toLowerStr (cs.proficiency_level.getD (S "intermediate"))) := by omega
      have h2 : (1 : ℚ) ≤ ((levelScores (toLowerStr (js.proficiency_level.getD (S "intermediate")))
          - levelScores (toLowerStr (cs.proficiency_level.getD (S "intermediate"))) : ℤ) : ℚ) := by
        exact_mod_cast h1
      push_cast at h2 ⊢
      nlinarith

set_option maxHeartbeats 1000000 in
theorem skillWeights_mem (cat : Str) : 0 ≤ skillWeights cat ∧ skillWeights cat ≤ 1 := by
  unfold skillWeights
  split_ifs <;> constructor <;> norm_num

theorem skillLoop_scores_mem (cdict jd : List (Str × MSkill)) :
    ∀ q ∈ (skillLoop cdict jd).2.2, 0 ≤ q ∧ q ≤ 1 := by
  induction jd with
  | nil => intro q hq; simp [skillLoop] at hq
  | cons p rest ih =>
    intro q hq
    obtain ⟨jname, js⟩ := p
    simp only [skillLoop] at hq
    rcases hlk : cdict.lookup jname with _ | cs <;> rw [hlk] at hq
    · exact ih q hq
    · rcases List.mem_cons.mp hq with h | h
      · subst h
        have h1 := calcSkillLevelMatch_mem cs js
        have h2 := skillWeights_mem
          (replaceChar ' ' '_' (toLowerStr (js.category.getD (S "technical"))))
        constructor
        · exact mul_nonneg h1.1 h2.1
        · calc calcSkillLevelMatch cs js *
              skillWeights (replaceChar ' ' '_' (toLowerStr (js.category.getD (S "technical"))))
              ≤ 1 * 1 := by
                apply mul_le_mul h1.2 h2.2 h2.1
                norm_num
            _ = 1 := by norm_num
      · exact ih q h

theorem skillLoop_matched_le (cdict jd : List (Str × MSkill)) :
    (skillLoop cdict jd).1.length ≤ jd.length := by
  induction jd with
  | nil => simp [skillLoop]
  | cons p rest ih =>
    obtain ⟨jname, js⟩ := p
    simp only [skillLoop]
    rcases hlk : cdict.lookup jname with _ | cs <;> simp [hlk] <;> omega

theorem dictInsert_length (d : List (Str × MSkill)) (k : Str) (v : MSkill) :
    (dictInsert d k v).length ≤ d.length + 1 := by
  unfold dictInsert
  split
  · simp
  · simp

theorem buildSkillDictA_length (l : List MSkill) :
    ∀ (acc d : List (Str × MSkill)), buildSkillDictA acc l = .ok d →
      d.length ≤ acc.length + l.length := by
  induction l with
  | nil =>
    intro acc d h
    simp only [buildSkillDictA] at h
    cases h
    simp
  | cons s rest ih =>
    intro acc d h
    simp only [buildSkillDictA] at h
    rcases hn : s.name with _ | n <;> rw [hn] at h
    · cases h
    · have := ih (dictInsert acc (toLowerStr n) s) d h
      have h2 := dictInsert_length acc (toLowerStr n) s
      simp only [List.length_cons]
      omega

theorem buildSkillDict_length {l : List MSkill} {d : List (Str × MSkill)}
    (h : buildSkillDict l = .ok d) : d.length ≤ l.length := by
  have := buildSkillDictA_length l [] d h
  simpa using this

theorem listMean_mem {l : List ℚ} (hne : l ≠ [])
    (h : ∀ x ∈ l, 0 ≤ x ∧ x ≤ 1) : 0 ≤ listMean l ∧ listMean l ≤ 1 := by
  have hlen : 0 < (l.length : ℚ) := by
    have : 0 < l.length := List.length_pos.mpr hne
    exact_mod_cast this
  have hsum0 : 0 ≤ l.sum := List.sum_nonneg (fun x hx => (h x hx).1)
  have hsum1 : l.sum ≤ (l.length : ℚ) := by
    have := List.sum_le_card_nsmul l 1 (fun x hx => (h x hx).2)
    simpa [nsmul_eq_mul] using this
  constructor
  · exact div_nonneg hsum0 (le_of_lt hlen)
  · rw [listMean, div_le_one hlen]
    exact hsum1

theorem calcSkillMatch_score_mem (c : MCand) (j : MJob) :
    0 ≤ (calcSkillMatch c j).score ∧ (calcSkillMatch c j).score ≤ 1 := by
  unfold calcSkillMatch
  rcases hc : calcSkillMatchCore c j with e | b
  · norm_num [skillErrResult]
  · simp only []
    unfold calcSkillMatchCore at hc
    by_cases hins : c.skills = [] ∨ j.required_skills = []
    · rw [if_pos hins] at hc
      cases hc
      norm_num
    · rw [if_neg hins] at hc
      push_neg at hins
      rcases h1 : buildSkillDict c.skills with e1 | cdict <;> rw [h1] at hc
      · cases hc
      rcases h2 : buildSkillDict j.required_skills with e2 | jdict <;> rw [h2] at hc
      · cases hc
      simp only [] at hc
      cases hc
      simp only []
      by_cases hsc : (skillLoop cdict jdict).2.2 ≠ []
      · rw [if_pos hsc]
        have hmean := listMean_mem hsc (skillLoop_scores_mem cdict jdict)
        have hjlen : 0 < (j.required_skills.length : ℚ) := by
          have : 0 < j.required_skills.length := List.length_pos.mpr hins.2
          exact_mod_cast this
        have hcov0 : 0 ≤ ((skillLoop cdict jdict).1.length : ℚ) / (j.required_skills.length : ℚ) := by
          apply div_nonneg _ (le_of_lt hjlen)
          positivity
        have hcov1 : ((skillLoop cdict jdict).1.length : ℚ) / (j.required_skills.length : ℚ) ≤ 1 := by
          rw [div_le_one hjlen]
          have ha := skillLoop_matched_le cdict jdict
          have hb := buildSkillDict_length h2
          have : (skillLoop cdict jdict).1.length ≤ j.required_skills.length :=
            le_trans ha hb
          exact_mod_cast this
        refine pyRound3_mem (mul_nonneg hmean.1 hcov0) ?_
        calc listMean (skillLoop cdict jdict).2.2 *
            (((skillLoop cdict jdict).1.length : ℚ) / (j.required_skills.length : ℚ))
            ≤ 1 * 1 := by
              apply mul_le_mul hmean.2 hcov1 hcov0
              norm_num
          _ = 1 := by norm_num
      · rw [if_neg hsc]
        exact pyRound3_mem (by norm_num) (by norm_num)

theorem yearsScore_mem (years rmin rmax : ℚ) :
    0 ≤ yearsScore years rmin rmax ∧ yearsScore years rmin rmax ≤ 1 := by
  unfold yearsScore
  split_ifs with h1 h2
  · norm_num
  · push_neg at h2
    constructor
    · exact le_max_of_le_left (by norm_num)
    · apply max_le (by norm_num)
      nlinarith
  · push_neg at h1
    constructor
    · exact le_max_of_le_left (by norm_num)
    · apply max_le (by norm_num)
      nlinarith

theorem calcLevelMatch_mem (cl rl : Str) :
    0 ≤ calcLevelMatch cl rl ∧ calcLevelMatch cl rl ≤ 1 := by
  simp only [calcLevelMatch]
  split
  · split
    · norm_num
    · rename_i hle hgt
      push_neg at hgt
      constructor
      · exact le_max_of_le_left (by norm_num)
      · apply max_le (by norm_num)
        have h1 : (1 : ℤ) ≤ experienceLevels cl - experienceLevels rl - 1 := by omega
        have h2 : (1 : ℚ) ≤ ((experienceLevels cl - experienceLevels rl - 1 : ℤ) : ℚ) := by
          exact_mod_cast h1
        nlinarith
  · rename_i hgt
    push_neg at hgt
    constructor
    · exact le_max_of_le_left (by norm_num)
    · apply max_le (by norm_num)
      have h1 : (1 : ℤ) ≤ experienceLevels rl - experienceLevels cl := by omega
      have h2 : (1 : ℚ) ≤ ((experienceLevels rl - experienceLevels cl : ℤ) : ℚ) := by
        exact_mod_cast h1
      nlinarith

theorem calcIndustryMatch_mem (experience : List MExp) (ind : Str) :
    0 ≤ calcIndustryMatch experience ind ∧ calcIndustryMatch experience ind ≤ 1 := by
  simp only [calcIndustryMatch]
  split
  · norm_num
  · rename_i hne
    push_neg at hne
    split
    · constructor
      · apply le_min (by norm_num)
        have hlen : 0 < (experience.length : ℚ) := by
          have : 0 < experience.length := List.length_pos.mpr hne.2
          exact_mod_cast this
        have h0 : (0 : ℚ) ≤ ((experience.filter
            (fun e => substr (toLowerStr ind)
              (toLowerStr (e.description ++ S " " ++ e.company)))).length : ℚ) /
            (experience.length : ℚ) := by positivity
        linarith
      · exact le_trans (min_le_left _ _) (by norm_num)
    · norm_num

theorem calcExperienceMatch_score_mem (year : ℕ) (c : MCand) (j : MJob) :
    0 ≤ (calcExperienceMatch year c j).score ∧ (calcExperienceMatch year c j).score ≤ 1 := by
  have hsc : (calcExperienceMatch year c j).score =
      pyRound3 (yearsScore (calcYears year c.work_experience) (reqMinYears j) (reqMaxYears j) * 0.4 +
        calcLevelMatch (determineLevel (calcYears year c.work_experience)) (reqLevel j) * 0.4 +
        calcIndustryMatch c.work_experience j.industry * 0.2) := rfl
  rw [hsc]
  have h1 := yearsScore_mem (calcYears year c.work_experience) (reqMinYears j) (reqMaxYears j)
  have h2 := calcLevelMatch_mem (determineLevel (calcYears year c.work_experience)) (reqLevel j)
  have h3 := calcIndustryMatch_mem c.work_experience j.industry
  exact pyRound3_mem (by nlinarith [h1.1, h2.1, h3.1]) (by nlinarith [h1.2, h2.2, h3.2])

theorem calcDomainMatch_score_mem (c : MCand) (j : MJob) :
    0 ≤ (calcDomainMatch c j).score ∧ (calcDomainMatch c j).score ≤ 1 := by
  simp only [calcDomainMatch]
  split
  · norm_num
  · split
    · norm_num
    · split <;> norm_num

theorem calcLocationMatch_score_mem (c : MCand) (j : MJob) :
    0 ≤ (calcLocationMatch c j).score ∧ (calcLocationMatch c j).score ≤ 1 := by
  simp only [calcLocationMatch]
  split_ifs <;> norm_num

theorem keywordSimilarity_mem (t1 t2 : Str) :
    0 ≤ keywordSimilarity t1 t2 ∧ keywordSimilarity t1 t2 ≤ 1 := by
  simp only [keywordSimilarity]
  split
  · norm_num
  · split
    · rename_i hne huni
      have hcard : 0 < ((tokenSet t1 ∪ tokenSet t2).card : ℚ) := by
        have h1 : (tokenSet t1 ∪ tokenSet t2).Nonempty := Finset.nonempty_iff_ne_empty.mpr huni
        have h2 : 0 < (tokenSet t1 ∪ tokenSet t2).card := Finset.card_pos.mpr h1
        exact_mod_cast h2
      constructor
      · positivity
      · rw [div_le_one hcard]
        have : (tokenSet t1 ∩ tokenSet t2).card ≤ (tokenSet t1 ∪ tokenSet t2).card :=
          Finset.card_le_card Finset.inter_subset_union
        exact_mod_cast this
    · norm_num

theorem calcSemanticMatch_score_mem (m : TfidfModel) (c : MCand) (j : MJob) :
    0 ≤ (calcSemanticMatch m c j).score ∧ (calcSemanticMatch m c j).score ≤ 1 := by
  simp only [calcSemanticMatch]
  split
  · norm_num
  · split
    · rename_i sim heq
      have hsome : m.cos (prepCandText c) (prepJobText j) = some sim := by
        by_cases hf : m.fitted
      
        · rw [if_pos hf] at heq; exact heq
        · rw [if_neg hf] at heq; cases heq
      exact pyRound3_mem (m.cos_nonneg _ _ _ hsome) (m.cos_le_one _ _ _ hsome)
    · have := keywordSimilarity_mem (prepCandText c) (prepJobText j)
      exact pyRound3_mem this.1 this.2

theorem candCompleteness_mem (c : MCand) :
    0 ≤ candCompleteness c ∧ candCompleteness c ≤ 1 := by
  unfold candCompleteness
  split_ifs <;> norm_num

theorem jobCompleteness_mem (j : MJob) :
    0 ≤ jobCompleteness j ∧ jobCompleteness j ≤ 1 := by
  unfold jobCompleteness
  split_ifs <;> norm_num

theorem calcConfidence_mem (c : MCand) (j : MJob) :
    0 ≤ calcConfidence c j ∧ calcConfidence c j ≤ 1 := by
  have h1 := candCompleteness_mem c
  have h2 := jobCompleteness_mem j
  unfold calcConfidence
  constructor <;> nlinarith [h1.1, h1.2, h2.1, h2.2]

/-! ## Concrete fixtures -/

/-- Candidate record with every field empty. -/
def emptyCand : MCand :=
  { id := 0, full_name := [], email := [], location := [], summary := [],
    skills := [], work_experience := [], education := [], domain_expertise := [] }

/-- Job record with every field empty. -/
def emptyJob : MJob :=
  { id := 0, title := [], company := [], location := [], industry := [],
    description := [], requirements := [], remote_ok := false,
    experience_requirements := none, required_skills := [] }

/-- The engine's initial model state (`_models_fitted = False`). -/
def noTfidf : TfidfModel :=
  { fitted := false, cos := fun _ _ => none,
    cos_nonneg := fun _ _ _ h => Option.noConfusion h,
    cos_le_one := fun _ _ _ h => Option.noConfusion h }

/-- Candidate of the spec's skill scenario: one skill, Python at expert. -/
def pythonCand : MCand :=
  { emptyCand with skills :=
      [{ name := some (S "Python"), category := none,
         proficiency_level := some (S "expert") }] }

/-- Job of the spec's skill scenario: requires Python at beginner in
category `programming_languages`. -/
def pythonJob : MJob :=
  { emptyJob with required_skills :=
      [{ name := some (S "Python"), category := some (S "programming_languages"),
         proficiency_level := some (S "beginner") }] }

/-- Job requiring at least five years of experience. -/
def jobMin5 : MJob :=
  { emptyJob with experience_requirements := some (⟨5, 20, S "mid"⟩ : ExpReq) }

/-- Candidate whose single skill record lacks the `name` key. -/
def noNameCand : MCand :=
  { emptyCand with skills := [{ name := none, category := none, proficiency_level := none }] }

/-- Job with one named required skill. -/
def javaJob : MJob :=
  { emptyJob with required_skills :=
      [{ name := some (S "Java"), category := none, proficiency_level := none }] }

/-! ## Claim theorems for the matching engine -/

/-- C1: for every candidate/job pair (and every model state and clock), the
overall score and the confidence of `calculate_match_score` lie in
`[0, 1]`; each of the five component scores lies in `[0, 1]`, the five
component weights sum to `1.0`, and each side's completeness indicator sum
lies in `[0, 1]`. -/
theorem c1_match_score_bounded (m : TfidfModel) (year : ℕ) (nowIso : Str)
    (c : MCand) (j : MJob) :
    (0 ≤ (calcMatchScore m year nowIso c j).overall_score ∧
      (calcMatchScore m year nowIso c j).overall_score ≤ 1) ∧
    (0 ≤ (calcMatchScore m year nowIso c j).confidence ∧
      (calcMatchScore m year nowIso c j).confidence ≤ 1) ∧
    wSkills + wExperience + wDomain + wLocation + wSemantic = 1 ∧
    (0 ≤ (calcSkillMatch c j).score ∧ (calcSkillMatch c j).score ≤ 1) ∧
    (0 ≤ (calcExperienceMatch year c j).score ∧ (calcExperienceMatch year c j).score ≤ 1) ∧
    (0 ≤ (calcDomainMatch c j).score ∧ (calcDomainMatch c j).score ≤ 1) ∧
    (0 ≤ (calcLocationMatch c j).score ∧ (calcLocationMatch c j).score ≤ 1) ∧
    (0 ≤ (calcSemanticMatch m c j).score ∧ (calcSemanticMatch m c j).score ≤ 1) ∧
    (0 ≤ candCompleteness c ∧ candCompleteness c ≤ 1) ∧
    (0 ≤ jobCompleteness j ∧ jobCompleteness j ≤ 1) := by
  have hsk := calcSkillMatch_score_mem c j
  have hex := calcExperienceMatch_score_mem year c j
  have hdm := calcDomainMatch_score_mem c j
  have hlc := calcLocationMatch_score_mem c j
  have hsm := calcSemanticMatch_score_mem m c j
  have hov : (calcMatchScore m year nowIso c j).overall_score =
      pyRound3 ((calcSkillMatch c j).score * wSkills +
        (calcExperienceMatch year c j).score * wExperience +
        (calcDomainMatch c j).score * wDomain +
        (calcLocationMatch c j).score * wLocation +
        (calcSemanticMatch m c j).score * wSemantic) := rfl
  have hcf : (calcMatchScore m year nowIso c j).confidence =
      pyRound3 (calcConfidence c j) := rfl
  refine ⟨?_, ?_, by norm_num [wSkills, wExperience, wDomain, wLocation, wSemantic],
    hsk, hex, hdm, hlc, hsm, candCompleteness_mem c, jobCompleteness_mem j⟩
  · rw [hov]
    apply pyRound3_mem
    · simp only [wSkills, wExperience, wDomain, wLocation, wSemantic]
      nlinarith [hsk.1, hex.1, hdm.1, hlc.1, hsm.1]
    · simp only [wSkills, wExperience, wDomain, wLocation, wSemantic]
      nlinarith [hsk.1, hsk.2, hex.1, hex.2, hdm.1, hdm.2, hlc.1, hlc.2, hsm.1, hsm.2]
  · rw [hcf]
    exact pyRound3_mem (calcConfidence_mem c j).1 (calcConfidence_mem c j).2

/-- C5: the per-skill level match is `1.0` when the candidate's proficiency
meets or exceeds the required one, and otherwise `1.0` minus `0.25` per
level of gap floored at `0`; and on the spec's scenario (candidate Python
expert, job Python beginner in `programming_languages`) the skill component
score is exactly `1.0`. -/
theorem c5_skill_level_match (cs js : MSkill) :
    (levelScores (toLowerStr (js.proficiency_level.getD (S "intermediate"))) ≤
        levelScores (toLowerStr (cs.proficiency_level.getD (S "intermediate"))) →
      calcSkillLevelMatch cs js = 1) ∧
    (levelScores (toLowerStr (cs.proficiency_level.getD (S "intermediate"))) <
        levelScores (toLowerStr (js.proficiency_level.getD (S "intermediate"))) →
      calcSkillLevelMatch cs js = max 0.0 (1.0 -
        ((levelScores (toLowerStr (js.proficiency_level.getD (S "intermediate"))) -
          levelScores (toLowerStr (cs.proficiency_level.getD (S "intermediate"))) : ℤ) : ℚ)
          * 0.25)) ∧
    (calcSkillMatch pythonCand pythonJob).score = 1 := by
  refine ⟨?_, ?_, by with_unfolding_all decide⟩
  · intro h
    simp only [calcSkillLevelMatch]
    rw [if_pos h]
    norm_num
  · intro h
    simp only [calcSkillLevelMatch]
    rw [if_neg (not_le.mpr h)]

/-- C5 witness: a candidate at expert level against a beginner requirement
scores `1.0`. -/
theorem c5_skill_level_match_witness :
    calcSkillLevelMatch
      { name := some (S "Python"), category := none, proficiency_level := some (S "expert") }
      { name := some (S "Python"), category := some (S "programming_languages"),
        proficiency_level := some (S "beginner") } = 1 :=
  (c5_skill_level_match _ _).1 (by decide)

/-- C6 counterexample: the empty duration string cannot be parsed as years,
months or a year range, yet `_parse_duration_to_years` returns `0.0` for
it, not the claimed default of `1.0` — an experience entry with an empty
`duration` contributes nothing to the total. -/
theorem c6_empty_duration_counterexample :
    scanFor yearAt (toLowerStr []) = none ∧
    scanFor monthAt (toLowerStr []) = none ∧
    scanFor (rangeAt 2026) (toLowerStr []) = none ∧
    parseDurationToYears 2026 [] = 0 ∧
    calcYears 2026 [{ job_title := [], company := [], duration := [], description := [] }] = 0 ∧
    (0 : ℚ) ≠ 1 := by
  with_unfolding_all decide

/-- C6 (amended): a non-empty duration string matching none of the year,
month and range patterns contributes `1.0` year; an empty duration
contributes `0.0`; the years-score is `1.0` inside the required range,
loses `0.15` per missing year below the minimum (floored at `0`), loses
`0.05` per excess year above the maximum (floored at `0.7`); and a
candidate with `0` parseable years against `min_years = 5` gets a
years-score of `0.25`. -/
theorem c6_experience_years_amended (year : ℕ) (d : Str) (c : MCand) (j : MJob) :
    (d ≠ [] → scanFor yearAt (toLowerStr d) = none →
      scanFor monthAt (toLowerStr d) = none →
      scanFor (rangeAt year) (toLowerStr d) = none →
      parseDurationToYears year d = 1) ∧
    parseDurationToYears year [] = 0 ∧
    (reqMinYears j ≤ calcYears year c.work_experience →
      calcYears year c.work_experience ≤ reqMaxYears j →
      (calcExperienceMatch year c j).years_score = 1) ∧
    (calcYears year c.work_experience < reqMinYears j →
      (calcExperienceMatch year c j).years_score =
        pyRound3 (max 0.0 (1.0 - (reqMinYears j - calcYears year c.work_experience) * 0.15))) ∧
    (reqMinYears j ≤ calcYears year c.work_experience →
      reqMaxYears j < calcYears year c.work_experience →
      (calcExperienceMatch year c j).years_score =
        pyRound3 (max 0.7 (1.0 - (calcYears year c.work_experience - reqMaxYears j) * 0.05))) ∧
    (calcExperienceMatch 2026 emptyCand jobMin5).years_score = 0.25 := by
  have hys : (calcExperienceMatch year c j).years_score =
      pyRound3 (yearsScore (calcYears year c.work_experience) (reqMinYears j)
        (reqMaxYears j)) := rfl
  refine ⟨?_, by norm_num [parseDurationToYears], ?_, ?_, ?_,
    by with_unfolding_all decide⟩
  · intro h1 h2 h3 h4
    simp only [parseDurationToYears, if_neg h1, h2, h3, h4]
    norm_num
  · intro h1 h2
    rw [hys, yearsScore, if_pos h1, if_pos h2]
    with_unfolding_all decide
  · intro h1
    rw [hys, yearsScore, if_neg (not_le.mpr h1)]
  · intro h1 h2
    rw [hys, yearsScore, if_pos h1, if_neg (not_le.mpr h2)]

/-- C6 witness: the unparseable string `"abc"` contributes the default of
one year. -/
theorem c6_experience_years_witness : parseDurationToYears 2026 (S "abc") = 1 :=
  (c6_experience_years_amended 2026 (S "abc") emptyCand emptyJob).1
    (by decide) (by with_unfolding_all decide) (by with_unfolding_all decide)
    (by with_unfolding_all decide)

/-- C7: when the skill component's body raises (here: a skill record
without a `name` key), `calculate_match_score` substitutes the component
result `{'score': 0.0, 'error': str(e)}` for that component only — the
other four components and the confidence are computed normally and the
overall score is the weighted sum using `0.0` for the failed component. -/
theorem c7_component_error_isolated (m : TfidfModel) (year : ℕ) (nowIso : Str)
    (c : MCand) (j : MJob) (e : Str) (h : calcSkillMatchCore c j = .error e) :
    (calcMatchScore m year nowIso c j).skills.score = 0 ∧
    (calcMatchScore m year nowIso c j).skills.error = some e ∧
    (calcMatchScore m year nowIso c j).skills = skillErrResult e ∧
    (calcMatchScore m year nowIso c j).experience = calcExperienceMatch year c j ∧
    (calcMatchScore m year nowIso c j).domain = calcDomainMatch c j ∧
    (calcMatchScore m year nowIso c j).location = calcLocationMatch c j ∧
    (calcMatchScore m year nowIso c j).semantic = calcSemanticMatch m c j ∧
    (calcMatchScore m year nowIso c j).confidence = pyRound3 (calcConfidence c j) ∧
    (calcMatchScore m year nowIso c j).overall_score =
      pyRound3 (0 * wSkills + (calcExperienceMatch year c j).score * wExperience +
        (calcDomainMatch c j).score * wDomain +
        (calcLocationMatch c j).score * wLocation +
        (calcSemanticMatch m c j).score * wSemantic) := by
  have hsk : calcSkillMatch c j = skillErrResult e := by
    simp only [calcSkillMatch, h]
  have hscore : (calcMatchScore m year nowIso c j).skills = calcSkillMatch c j := rfl
  have hov : (calcMatchScore m year nowIso c j).overall_score =
      pyRound3 ((calcSkillMatch c j).score * wSkills +
        (calcExperienceMatch year c j).score * wExperience +
        (calcDomainMatch c j).score * wDomain +
        (calcLocationMatch c j).score * wLocation +
        (calcSemanticMatch m c j).score * wSemantic) := rfl
  refine ⟨?_, ?_, ?_, rfl, rfl, rfl, rfl, rfl, ?_⟩
  · rw [hscore, hsk]
    norm_num [skillErrResult]
  · rw [hscore, hsk]
    rfl
  · rw [hscore, hsk]
  · rw [hov, hsk]
    norm_num [skillErrResult]

/-- C7 witness: a candidate whose skill record lacks its name makes the
skill component raise `KeyError`; the engine stores score `0.0` with the
error annotation for that component and still computes the experience
component. -/
theorem c7_component_error_isolated_witness :
    calcSkillMatchCore noNameCand javaJob = .error (S "KeyError: name") ∧
    (calcMatchScore noTfidf 2026 [] noNameCand javaJob).skills =
      skillErrResult (S "KeyError: name") ∧
    (calcMatchScore noTfidf 2026 [] noNameCand javaJob).experience =
      calcExperienceMatch 2026 noNameCand javaJob :=
  have h : calcSkillMatchCore noNameCand javaJob = .error (S "KeyError: name") := by
    with_unfolding_all rfl
  ⟨h, (c7_component_error_isolated noTfidf 2026 [] noNameCand javaJob _ h).2.2.1,
    (c7_component_error_isolated noTfidf 2026 [] noNameCand javaJob _ h).2.2.2.1⟩

/-! ## Ranking lemmas and the ranking claim -/

theorem jobMatchEntry_pos {m : TfidfModel} {year : ℕ} {nowIso : Str} {c : MCand}
    {j : MJob} {e : JobMatch} (h : jobMatchEntry m year nowIso c j = some e) :
    0 < e.match_score := by
  simp only [jobMatchEntry] at h
  by_cases h0 : 0 < (calcMatchScore m year nowIso c j).overall_score
  · rw [if_pos h0] at h
    cases h
    exact h0
  · rw [if_neg h0] at h
    cases h

theorem jobMatchEntry_id {m : TfidfModel} {year : ℕ} {nowIso : Str} {c : MCand}
    {j : MJob} {e : JobMatch} (h : jobMatchEntry m year nowIso c j = some e) :
    e.job_id = j.id := by
  simp only [jobMatchEntry] at h
  by_cases h0 : 0 < (calcMatchScore m year nowIso c j).overall_score
  · rw [if_pos h0] at h
    cases h
    rfl
  · rw [if_neg h0] at h
    cases h

theorem candMatchEntry_pos {m : TfidfModel} {year : ℕ} {nowIso : Str} {j : MJob}
    {c : MCand} {e : CandMatch} (h : candMatchEntry m year nowIso j c = some e) :
    0 < e.match_score := by
  simp only [candMatchEntry] at h
  by_cases h0 : 0 < (calcMatchScore m year nowIso c j).overall_score
  · rw [if_pos h0] at h
    cases h
    exact h0
  · rw [if_neg h0] at h
    cases h

theorem candMatchEntry_id {m : TfidfModel} {year : ℕ} {nowIso : Str} {j : MJob}
    {c : MCand} {e : CandMatch} (h : candMatchEntry m year nowIso j c = some e) :
    e.candidate_id = c.id := by
  simp only [candMatchEntry] at h
  by_cases h0 : 0 < (calcMatchScore m year nowIso c j).overall_score
  · rw [if_pos h0] at h
    cases h
    rfl
  · rw [if_neg h0] at h
    cases h

/-- C4: both ranking operations score every pair, keep only entries with a
positive overall score, sort them in descending match-score order with ties
kept in input iteration order (captured by strictly increasing record ids),
and return at most `limit` entries, the head of the sorted list; the
returned slice together with the dropped tail is a permutation of all
positive-score entries. -/
theorem c4_ranking_sorted_truncated (m : TfidfModel) (year : ℕ) (nowIso : Str)
    (c : MCand) (jobs : List MJob) (j : MJob) (cands : List MCand) (limit : ℕ) :
    (findBestMatches m year nowIso c jobs limit).length ≤ limit ∧
    (findBestMatches m year nowIso c jobs limit).Pairwise
      (fun a b => b.match_score ≤ a.match_score) ∧
    List.Perm (findBestMatches m year nowIso c jobs limit ++
      (sortedJobMatches m year nowIso c jobs).drop limit)
      (jobs.filterMap (jobMatchEntry m year nowIso c)) ∧
    (∀ e ∈ findBestMatches m year nowIso c jobs limit, 0 < e.match_score) ∧
    (jobs.Pairwise (fun a b => a.id < b.id) →
      (findBestMatches m year nowIso c jobs limit).Pairwise
        (fun a b => b.match_score < a.match_score ∨
          (a.match_score = b.match_score ∧ a.job_id < b.job_id))) ∧
    (findBestCandidates m year nowIso j cands limit).length ≤ limit ∧
    (findBestCandidates m year nowIso j cands limit).Pairwise
      (fun a b => b.match_score ≤ a.match_score) ∧
    List.Perm (findBestCandidates m year nowIso j cands limit ++
      (sortedCandMatches m year nowIso j cands).drop limit)
      (cands.filterMap (candMatchEntry m year nowIso j)) ∧
    (∀ e ∈ findBestCandidates m year nowIso j cands limit, 0 < e.match_score) ∧
    (cands.Pairwise (fun a b => a.id < b.id) →
      (findBestCandidates m year nowIso j cands limit).Pairwise
        (fun a b => b.match_score < a.match_score ∨
          (a.match_score = b.match_score ∧ a.candidate_id < b.candidate_id))) := by
  refine ⟨?_, ?_, ?_, ?_, ?_, ?_, ?_, ?_, ?_, ?_⟩
  · exact List.length_take_le limit _
  · exact ((isortDesc_pairwise JobMatch.match_score _).sublist
      (List.take_sublist limit _))
  · rw [findBestMatches, List.take_append_drop]
    exact isortDesc_perm JobMatch.match_score _
  · intro e he
    have h1 : e ∈ sortedJobMatches m year nowIso c jobs := List.mem_of_mem_take he
    have h2 : e ∈ jobs.filterMap (jobMatchEntry m year nowIso c) :=
      (isortDesc_perm JobMatch.match_score _).mem_iff.mp h1
    obtain ⟨j', _, hj'⟩ := List.mem_filterMap.mp h2
    exact jobMatchEntry_pos hj'
  · intro hids
    have hent : (jobs.filterMap (jobMatchEntry m year nowIso c)).Pairwise
        (fun a b => a.job_id < b.job_id) := by
      refine hids.filterMap _ ?_
      intro a b hab e he e' he'
      rw [Option.mem_def] at he he'
      rw [jobMatchEntry_id he, jobMatchEntry_id he']
      exact hab
    exact ((isortDesc_lex JobMatch.match_score JobMatch.job_id _ hent).sublist
      (List.take_sublist limit _))
  · exact List.length_take_le limit _
  · exact ((isortDesc_pairwise CandMatch.match_score _).sublist
      (List.take_sublist limit _))
  · rw [findBestCandidates, List.take_append_drop]
    exact isortDesc_perm CandMatch.match_score _
  · intro e he
    have h1 : e ∈ sortedCandMatches m year nowIso j cands := List.mem_of_mem_take he
    have h2 : e ∈ cands.filterMap (candMatchEntry m year nowIso j) :=
      (isortDesc_perm CandMatch.match_score _).mem_iff.mp h1
    obtain ⟨c', _, hc'⟩ := List.mem_filterMap.mp h2
    exact candMatchEntry_pos hc'
  · intro hids
    have hent : (cands.filterMap (candMatchEntry m year nowIso j)).Pairwise
        (fun a b => a.candidate_id < b.candidate_id) := by
      refine hids.filterMap _ ?_
      intro a b hab e he e' he'
      rw [Option.mem_def] at he he'
      rw [candMatchEntry_id he, candMatchEntry_id he']
      exact hab
    exact ((isortDesc_lex CandMatch.match_score CandMatch.candidate_id _ hent).sublist
      (List.take_sublist limit _))

/-- Two empty jobs with ids 0 and 1. -/
def jobsW : List MJob := [emptyJob, { emptyJob with id := 1 }]

/-- C4 witness: two identical jobs tie on score; the returned ranking is
sorted descending with the tie kept in input order (job id 0 first), has at
most five entries, and evaluates to exactly the two tied entries. -/
theorem c4_ranking_sorted_truncated_witness :
    jobsW.Pairwise (fun a b => a.id < b.id) ∧
    (findBestMatches noTfidf 2026 [] emptyCand jobsW 5).Pairwise
      (fun a b => b.match_score < a.match_score ∨
        (a.match_score = b.match_score ∧ a.job_id < b.job_id)) ∧
    (findBestMatches noTfidf 2026 [] emptyCand jobsW 5).length ≤ 5 ∧
    (findBestMatches noTfidf 2026 [] emptyCand jobsW 5).map JobMatch.job_id = [0, 1] :=
  ⟨by decide,
    (c4_ranking_sorted_truncated noTfidf 2026 [] emptyCand jobsW emptyJob [] 5).2.2.2.2.1
      (by decide),
    (c4_ranking_sorted_truncated noTfidf 2026 [] emptyCand jobsW emptyJob [] 5).1,
    by with_unfolding_all decide⟩

/-! ## Resume parsing: data model

Shared record shapes for the parsed-resume dicts of
`enhanced_resume_parser.py` and `spacy_resume_parser.py`.  Keys that a
source path may leave absent are `Option` fields. -/

/-- Uploaded file: a filename (possibly empty, as `getattr(file, 'filename',
'')` yields) and its byte content. -/
structure RFile where
  filename : Str
  content : Str
deriving DecidableEq, Repr

/-- The `personal_info` dict (`location` is set only by the spaCy parser). -/
structure PersonalInfo where
  full_name : Option Str
  first_name : Option Str
  last_name : Option Str
  location : Option Str
deriving DecidableEq, Repr

/-- The `contact_info` dict (`github`/`website` are set only by the spaCy
parser). -/
structure ContactInfo where
  email : Option Str
  phone : Option Str
  linkedin : Option Str
  github : Option Str
  website : Option Str
deriving DecidableEq, Repr

/-- A parsed skill record. -/
structure BSkill where
  name : Str
  category : Str
  proficiency_level : Str
  mentioned_count : ℕ
deriving DecidableEq, Repr

/-- A parsed education record. -/
structure BEdu where
  degree : Str
  field_of_study : Str
  institution : Str
  year : Str
deriving DecidableEq, Repr

/-- A parsed work-experience record. -/
structure BExp where
  job_title : Str
  company : Str
  duration : Str
  description : Str
  start_date : Str
  end_date : Str
deriving DecidableEq, Repr

/-- The `parsing_metadata` dict (`entities_found`/`sentences_count` are set
only by the spaCy parser). -/
structure ParseMeta where
  provider : Str
  confidence_score : ℚ
  completeness_score : ℚ
  parsed_at : Str
  text_length : ℕ
  entities_found : Option ℕ
  sentences_count : Option ℕ
deriving DecidableEq, Repr

/-- The full parsed-resume document. -/
structure ParsedData where
  personal_info : PersonalInfo
  contact_info : ContactInfo
  summary : Str
  skills : List BSkill
  education : List BEdu
  work_experience : List BExp
  domain_expertise : List Str
  parsing_metadata : ParseMeta
deriving DecidableEq, Repr

/-- The provider-level result dict: `success`, optional `error`, optional
`data` (field `dta`), `raw_text` and `provider`. -/
structure PResult where
  success : Bool
  error : Option Str
  dta : Option ParsedData
  raw_text : Option Str
  provider : Option Str
deriving DecidableEq, Repr

/-! ## Regex searchers for the basic field extractors

The regular expressions of `_extract_basic_contact_info`,
`_extract_basic_education` and `_extract_basic_experience` are implemented
as scanning matchers with explicit greedy backtracking where the pattern
needs it, and word-boundary (`\b`) tests carrying the previous character. -/

/-- Regex word character (`\w`). -/
def isWordChar (c : Char) : Bool := c.isAlphanum || c = '_'

/-- Word-ness of an optional character (`none` = string edge, non-word). -/
def wOpt : Option Char → Bool
  | none => false
  | some c => isWordChar c

/-- Word boundary `\b` between two adjacent positions. -/
def boundaryB (a b : Option Char) : Bool := wOpt a != wOpt b

/-- Generic `re.search` scan: try an anchored matcher at every position,
left to right, tracking the previous character for `\b` tests. -/
def searchWithPrev (f : Option Char → Str → Option β) : Option Char → Str → Option β
  | prev, [] => f prev []
  | prev, x :: xs =>
    match f prev (x :: xs) with
    | some r => some r
    | none => searchWithPrev f (some x) xs

/-- All splits of a maximal nonempty class run, longest prefix first (the
order a greedy `+` quantifier tries them in). -/
def plusSplits (p : Char → Bool) (s : Str) : List (Str × Str) :=
  let run := s.takeWhile p
  (List.range run.length).map (fun k => (s.take (run.length - k), s.drop (run.length - k)))

/-- All splits of a class run of length at least two, longest first (greedy
`{2,}`). -/
def rep2Splits (p : Char → Bool) (s : Str) : List (Str × Str) :=
  let run := s.takeWhile p
  if run.length < 2 then []
  else (List.range (run.length - 1)).map
    (fun k => (s.take (run.length - k), s.drop (run.length - k)))

/-- Local-part class `[A-Za-z0-9._%+-]` of the email pattern. -/
def emailLocalChar (c : Char) : Bool :=
  c.isAlphanum || c = '.' || c = '_' || c = '%' || c = '+' || c = '-'

/-- Domain class `[A-Za-z0-9.-]` of the email pattern. -/
def emailDomChar (c : Char) : Bool := c.isAlphanum || c = '.' || c = '-'

/-- Final class `[A-Z|a-z]` of the email pattern (the literal `|` is part
of the character class in the source). -/
def emailTldChar (c : Char) : Bool := c.isAlpha || c = '|'

/-- Anchored matcher for
`\b[A-Za-z0-9._%+-]+@[A-Za-z0-9.-]+\.[A-Z|a-z]{2,}\b`. -/
def emailAt (prev : Option Char) (s : Str) : Option Str :=
  if ¬ boundaryB prev s.head? then none
  else
    (plusSplits emailLocalChar s).findSome? (fun lp =>
      match lp.2 with
      | '@' :: r2 =>
        (plusSplits emailDomChar r2).findSome? (fun dp =>
          match dp.2 with
          | '.' :: r4 =>
            (rep2Splits emailTldChar r4).findSome? (fun tp =>
              if boundaryB (tp.1.getLastD ' ') tp.2.head? then
                some (lp.1 ++ '@' :: dp.1 ++ '.' :: tp.1)
              else none)
          | _ => none)
      | _ => none)

/-- `re.search` of the email pattern. -/
def emailSearch (text : Str) : Option Str := searchWithPrev emailAt none text

/-- Remainders after an optional literal character, consumed-first (greedy
`x?`). -/
def optChar (c : Char) (s : Str) : List Str :=
  match s with
  | x :: r => if x = c then [r, s] else [s]
  | [] => [s]

/-- Remainders after the optional separator `[-.\s]?`, consumed-first. -/
def sepOpt (s : Str) : List Str :=
  match s with
  | x :: r => if x = '-' ∨ x = '.' ∨ pyIsSpace x then [r, s] else [s]
  | [] => [s]

/-- Exactly `n` digits. -/
def exactDigits (n : ℕ) (s : Str) : Option Str :=
  if (s.take n).length = n ∧ (s.take n).all Char.isDigit then some (s.drop n) else none

/-- Anchored matcher for the phone pattern
`\b(?:\+?1[-.\s]?)?\(?[0-9]{3}\)?[-.\s]?[0-9]{3}[-.\s]?[0-9]{4}\b`,
returning the remainder after the match. -/
def phoneAt (prev : Option Char) (s : Str) : Option Str :=
  if ¬ boundaryB prev s.head? then none
  else
    let country : List Str :=
      ((optChar '+' s).flatMap (fun r1 =>
        match r1 with
        | '1' :: r2 => sepOpt r2
        | _ => [])) ++ [s]
    country.findSome? (fun r =>
      (optChar '(' r).findSome? (fun r1 =>
        match exactDigits 3 r1 with
        | none => none
        | some r2 =>
          (optChar ')' r2).findSome? (fun r3 =>
            (sepOpt r3).findSome? (fun r4 =>
              match exactDigits 3 r4 with
              | none => none
              | some r5 =>
                (sepOpt r5).findSome? (fun r6 =>
                  match exactDigits 4 r6 with
                  | none => none
                  | some r7 => if wOpt r7.head? then none else some r7)))))

/-- `re.search` of the phone pattern; the matched text is the scanned span
minus the remainder. -/
def phoneSearch (text : Str) : Option Str :=
  searchWithPrev (fun prev s =>
    match phoneAt prev s with
    | some rem => some (s.take (s.length - rem.length))
    | none => none) none text

/-- Case-insensitive literal prefix test (`re.IGNORECASE`). -/
def caselessPre (lit t : Str) : Bool := strPre lit (toLowerStr (t.take lit.length))

/-- Anchored matcher for `linkedin\.com/in/[\w-]+` with `re.IGNORECASE`,
returning the original-case matched span. -/
def linkedinAt (t : Str) : Option Str :=
  let lit := S "linkedin.com/in/"
  if caselessPre lit t then
    let run := (t.drop lit.length).takeWhile (fun c => isWordChar c || c = '-')
    if run ≠ [] then some (t.take (lit.length + run.length)) else none
  else none

/-- `re.search` of the LinkedIn pattern. -/
def linkedinSearch (text : Str) : Option Str :=
  searchWithPrev (fun _ s => linkedinAt s) none text

/-! ## Basic field extractors (`enhanced_resume_parser.py`) -/

/-- Python `str.isalpha`: nonempty and all alphabetic. -/
def isAlphaStr (s : Str) : Bool := ¬ s.isEmpty && s.all Char.isAlpha

/-- Truthiness of an optional string value. -/
def otruthy (o : Option Str) : Bool := ¬ (o.getD []).isEmpty

/-- Name-line scan of `_extract_basic_personal_info`: the first of the
first five lines that is nonempty, at most four words, and whose words are
alphabetic after removing dots. -/
def findNameLine : List Str → Option Str
  | [] => none
  | l :: rest =>
    let l' := stripStr l
    if l' ≠ [] ∧ (wordsOf l').length ≤ 4 ∧
        (wordsOf l').all (fun w => isAlphaStr (w.filter (fun c => c ≠ '.'))) then
      some l'
    else findNameLine rest

/-- Embedding of `_extract_basic_personal_info`. -/
def extractBasicPersonalInfo (text : Str) : PersonalInfo :=
  match findNameLine ((splitOnChar '\n' text).take 5) with
  | some l =>
    { full_name := some l,
      first_name := some ((wordsOf l).headD []),
      last_name := some (if 1 < (wordsOf l).length then lastStr (wordsOf l) else []),
      location := none }
  | none => { full_name := none, first_name := none, last_name := none, location := none }

/-- Embedding of `_extract_basic_contact_info`. -/
def extractBasicContactInfo (text : Str) : ContactInfo :=
  { email := emailSearch text,
    phone := phoneSearch text,
    linkedin := linkedinSearch text,
    github := none, website := none }

/-- The `basic_skills` keyword list of `_extract_basic_skills`. -/
def basicSkills : List Str :=
  [S "python", S "java", S "javascript", S "react", S "angular", S "node.js",
   S "sql", S "mysql", S "postgresql", S "mongodb", S "aws", S "azure",
   S "docker", S "kubernetes", S "git", S "html", S "css", S "machine learning",
   S "data analysis", S "project management"]

/-- Embedding of `_extract_basic_skills`. -/
def extractBasicSkills (text : Str) : List BSkill :=
  let tl := toLowerStr text
  ((basicSkills.filter (fun k => substr k tl)).map (fun k =>
    { name := pyTitle k, category := S "Technical",
      proficiency_level := S "intermediate",
      mentioned_count := countSubstr k tl })).take 20

/-- Keyword-alternation matcher with a leading `\b` and, when `bAfter` is
set, a trailing `\b`: tries the alternatives in pattern order and returns
the original-case matched span and the remainder. -/
def kwAt (kws : List Str) (bAfter : Bool) (prev : Option Char) (t : Str) :
    Option (Str × Str) :=
  if ¬ boundaryB prev t.head? then none
  else
    kws.findSome? (fun kw =>
      if caselessPre kw t ∧
          (¬ bAfter ∨ boundaryB ((t.take kw.length).getLastD ' ') (t.drop kw.length).head?) then
        some (t.take kw.length, t.drop kw.length)
      else none)

/-- Degree keywords of the first education pattern, in alternation order. -/
def eduKw1 : List Str :=
  [S "bachelor", S "master", S "phd", S "doctorate", S "bs", S "ba", S "ms",
   S "ma", S "mba"]

/-- Degree keywords of the second education pattern. -/
def eduKw2 : List Str := [S "bachelor's", S "master's"]

/-- Matcher for `(?:in|of)\s+([^.\n]+)` anchored at the start of `t`,
returning the group (the field of study) and the remainder. -/
def inOfRest (t : Str) : Option (Str × Str) :=
  if caselessPre (S "in") t ∨ caselessPre (S "of") t then
    let r := t.drop 2
    let ws := r.takeWhile pyIsSpace
    if ws = [] then none
    else
      let fld := (r.drop ws.length).takeWhile (fun c => c ≠ '.' ∧ c ≠ '\n')
      if fld = [] then none
      else some (fld, (r.drop ws.length).drop fld.length)
  else none

/-- The lazy `.*?` scan preceding `(?:in|of)\s+(...)`: shortest skip wins,
and `.` does not cross a newline. -/
def lazyInOf : Str → Option (Str × Str)
  | [] => none
  | x :: xs =>
    match inOfRest (x :: xs) with
    | some r => some r
    | none => if x = '\n' then none else lazyInOf xs

/-- Anchored matcher for the first education pattern
`\b(bachelor|master|phd|doctorate|bs|ba|ms|ma|mba)\b.*?(?:in|of)\s+([^.\n]+)`. -/
def eduMatch1At (prev : Option Char) (t : Str) : Option (Str × Str × Str) :=
  match kwAt eduKw1 true prev t with
  | none => none
  | some (kw, r1) =>
    match lazyInOf r1 with
    | none => none
    | some (fld, rem) => some (kw, fld, rem)

/-- Anchored matcher for the second education pattern
`\b(bachelor's|master's)\s+(?:degree\s+)?(?:in|of)\s+([^.\n]+)`. -/
def eduMatch2At (prev : Option Char) (t : Str) : Option (Str × Str × Str) :=
  match kwAt eduKw2 false prev t with
  | none => none
  | some (kw, r1) =>
    let ws := r1.takeWhile pyIsSpace
    if ws = [] then none
    else
      let r2 := r1.drop ws.length
      let degRems : List Str :=
        (if caselessPre (S "degree") r2 then
          let ws2 := (r2.drop 6).takeWhile pyIsSpace
          if ws2 ≠ [] then [(r2.drop 6).drop ws2.length] else []
        else []) ++ [r2]
      degRems.findSome? (fun r3 =>
        match inOfRest r3 with
        | none => none
        | some (fld, rem) => some (kw, fld, rem))

/-- Non-overlapping `re.finditer` loop for an anchored matcher returning a
pair of groups and a remainder.  Fueled by the text length. -/
def finditer2 (f : Option Char → Str → Option (Str × Str × Str)) :
    ℕ → Option Char → Str → List (Str × Str)
  | 0, _, _ => []
  | _ + 1, _, [] => []
  | fuel + 1, prev, x :: xs =>
    match f prev (x :: xs) with
    | some (g1, g2, rem) =>
      (g1, g2) :: finditer2 f fuel (some (g2.getLastD ' ')) rem
    | none => finditer2 f fuel (some x) xs

/-- Embedding of `_extract_basic_education`: the matches of the first
pattern followed by the matches of the second, each yielding a degree
(title-cased group 1) and a stripped field of study. -/
def extractBasicEducation (text : Str) : List BEdu :=
  (finditer2 eduMatch1At (text.length + 1) none text ++
    finditer2 eduMatch2At (text.length + 1) none text).map
    (fun g => { degree := pyTitle g.1, field_of_study := stripStr g.2,
                institution := [], year := [] })

/-- Job-title alternatives of the first experience pattern. -/
def expKw1 : List Str :=
  [S "software engineer", S "developer", S "manager", S "analyst",
   S "consultant", S "director"]

/-- Leading alternatives of the second experience pattern. -/
def expKw2a : List Str := [S "senior", S "junior", S "lead"]

/-- Trailing alternatives of the second experience pattern. -/
def expKw2b : List Str := [S "engineer", S "developer", S "manager", S "analyst"]

/-- Anchored matcher for
`\b(software engineer|developer|manager|analyst|consultant|director)\b`. -/
def expMatch1At (prev : Option Char) (t : Str) : Option (Str × Str) :=
  kwAt expKw1 true prev t

/-- Anchored matcher for
`\b(senior|junior|lead)\s+(engineer|developer|manager|analyst)\b`,
returning the whole matched span. -/
def expMatch2At (prev : Option Char) (t : Str) : Option (Str × Str) :=
  match kwAt expKw2a false prev t with
  | none => none
  | some (kw1, r1) =>
    let ws := r1.takeWhile pyIsSpace
    if ws = [] then none
    else
      match kwAt expKw2b true (some ' ') (r1.drop ws.length) with
      | none => none
      | some (kw2, rem) => some (kw1 ++ ws ++ kw2, rem)

/-- Non-overlapping `re.finditer` loop for a whole-match matcher. -/
def finditer1 (f : Option Char → Str → Option (Str × Str)) :
    ℕ → Option Char → Str → List Str
  | 0, _, _ => []
  | _ + 1, _, [] => []
  | fuel + 1, prev, x :: xs =>
    match f prev (x :: xs) with
    | some (g, rem) => g :: finditer1 f fuel (some (g.getLastD ' ')) rem
    | none => finditer1 f fuel (some x) xs

/-- Embedding of `_extract_basic_experience`. -/
def extractBasicExperience (text : Str) : List BExp :=
  ((finditer1 expMatch1At (text.length + 1) none text ++
    finditer1 expMatch2At (text.length + 1) none text).map
    (fun g => { job_title := pyTitle g, company := [], duration := [],
                description := [], start_date := [], end_date := [] })).take 5

/-- Embedding of `_extract_basic_summary`: the first paragraph whose
stripped form exceeds 50 characters, truncated to 500 characters. -/
def extractBasicSummary (text : Str) : Str :=
  match (splitOnPair '\n' '\n' text).find? (fun p => 50 < (stripStr p).length) with
  | some p => (stripStr p).take 500
  | none => []

/-- The `domain_keywords` table of `EnhancedResumeParsingService`, in
insertion order. -/
def enhancedDomainKeywords : List (Str × List Str) :=
  [(S "automobile", [S "automotive", S "car", S "vehicle", S "ford", S "toyota",
     S "bmw", S "honda", S "nissan", S "mercedes", S "audi"]),
   (S "e-commerce", [S "ecommerce", S "amazon", S "ebay", S "shopify",
     S "online retail", S "marketplace", S "digital commerce"]),
   (S "government", [S "government", S "public sector", S "federal", S "state",
     S "municipal", S "civil service", S "policy"]),
   (S "defense", [S "defense", S "military", S "army", S "navy", S "air force",
     S "security", S "homeland security"]),
   (S "healthcare", [S "healthcare", S "medical", S "hospital", S "pharmaceutical",
     S "clinical", S "patient care", S "nursing"]),
   (S "banking", [S "bank", S "banking", S "financial services", S "credit",
     S "loan", S "mortgage", S "investment banking"]),
   (S "finance", [S "finance", S "investment", S "trading", S "portfolio",
     S "hedge fund", S "private equity", S "fintech"]),
   (S "technology", [S "tech", S "software", S "IT", S "programming",
     S "development", S "artificial intelligence", S "machine learning"]),
   (S "education", [S "education", S "teaching", S "academic", S "university",
     S "school", S "training", S "curriculum"]),
   (S "retail", [S "retail", S "sales", S "customer service", S "merchandising",
     S "store operations", S "fashion"]),
   (S "manufacturing", [S "manufacturing", S "production", S "operations",
     S "supply chain", S "quality control", S "lean"]),
   (S "consulting", [S "consulting", S "advisory", S "strategy",
     S "management consulting", S "business consulting"])]

/-- Embedding of `_identify_domain_expertise_basic`: domains with at least
one keyword hit, first three. -/
def identifyDomainExpertiseBasic (text : Str) : List Str :=
  let tl := toLowerStr text
  ((enhancedDomainKeywords.filter
    (fun p => 1 ≤ (p.2.filter (fun k => substr k tl)).length)).map Prod.fst).take 3

/-- Python `round(x, 2)` in the exact-rational model. -/
def pyRound2 (q : ℚ) : ℚ := (rhe (q * 100) : ℚ) / 100

/-- Embedding of `_calculate_basic_completeness`. -/
def calcBasicCompleteness (pi : PersonalInfo) (ci : ContactInfo)
    (skills : List BSkill) (education : List BEdu) (experience : List BExp)
    (summary : Str) : ℚ :=
  let completed : ℚ :=
    (if otruthy pi.full_name then 1 else 0) +
    (if otruthy ci.email || otruthy ci.phone then 1 else 0) +
    (if skills ≠ [] then 1 else 0) +
    (if education ≠ [] then 1 else 0) +
    (if experience ≠ [] then 1 else 0) +
    (if summary ≠ [] then 1 else 0)
  pyRound2 (completed / 6)

/-- Embedding of `_parse_text_content` of the enhanced service.  `now` is
`datetime.now().isoformat()`. -/
def parseTextContent (now : Str) (text : Str) : ParsedData :=
  let pi := extractBasicPersonalInfo text
  let ci := extractBasicContactInfo text
  let sk := extractBasicSkills text
  let ed := extractBasicEducation text
  let ex := extractBasicExperience text
  let summ := extractBasicSummary text
  let de := identifyDomainExpertiseBasic text
  { personal_info := pi, contact_info := ci, summary := summ, skills := sk,
    education := ed, work_experience := ex, domain_expertise := de,
    parsing_metadata :=
      { provider := S "basic_extraction", confidence_score := 0.6,
        completeness_score := calcBasicCompleteness pi ci sk ed ex summ,
        parsed_at := now, text_length := text.length,
        entities_found := none, sentences_count := none } }

/-! ## spaCy parser (`spacy_resume_parser.py`)

The spaCy library calls (NER entities, the token `Matcher`, sentence and
entity counts, PDF/DOCX/image readers) are environment functions of the
text; every other extractor is pure string processing translated from the
source.  The organization entities, job-title and date matcher results of
`_extract_experience` are computed but never used by the source, so they do
not appear in the result. -/

/-- Environment of external calls made by `SpacyResumeParser`. -/
structure SpacyEnv where
  persons : Str → List Str
  gpeLocs : Str → List Str
  contactM : Str → ContactInfo
  degs : Str → List Str
  univs : Str → List Str
  entsCount : Str → ℕ
  sentsCount : Str → ℕ
  pdf : RFile → Option Str
  docx : RFile → Option Str
  image : RFile → Option Str

/-- The `skills_db` table, flattened in iteration order as
(category, skill) pairs. -/
def skillsDb : List (Str × List Str) :=
  [(S "programming_languages",
    [S "python", S "java", S "javascript", S "c++", S "c#", S "php", S "ruby",
     S "go", S "rust", S "swift", S "kotlin", S "scala", S "r", S "matlab",
     S "perl", S "shell", S "bash", S "powershell", S "typescript", S "dart",
     S "objective-c", S "assembly", S "cobol", S "fortran", S "haskell",
     S "lua", S "groovy"]),
   (S "web_development",
    [S "html", S "css", S "react", S "angular", S "vue", S "node.js",
     S "express", S "django", S "flask", S "spring", S "laravel",
     S "codeigniter", S "symfony", S "rails", S "asp.net", S "jquery",
     S "bootstrap", S "sass", S "less", S "webpack", S "gulp", S "grunt",
     S "npm", S "yarn", S "next.js", S "nuxt.js", S "svelte", S "ember.js",
     S "backbone.js", S "meteor", S "gatsby", S "strapi"]),
   (S "data_science",
    [S "machine learning", S "deep learning", S "artificial intelligence",
     S "data analysis", S "statistics", S "pandas", S "numpy", S "scipy",
     S "scikit-learn", S "tensorflow", S "pytorch", S "keras", S "matplotlib",
     S "seaborn", S "plotly", S "jupyter", S "anaconda", S "data mining",
     S "big data", S "hadoop", S "spark", S "kafka", S "airflow", S "mlflow",
     S "kubeflow", S "dask"]),
   (S "databases",
    [S "sql", S "mysql", S "postgresql", S "mongodb", S "redis",
     S "elasticsearch", S "oracle", S "sql server", S "sqlite", S "cassandra",
     S "dynamodb", S "neo4j", S "couchdb", S "influxdb", S "mariadb",
     S "firestore", S "realm", S "hbase", S "clickhouse", S "snowflake",
     S "bigquery"]),
   (S "cloud_technologies",
    [S "aws", S "azure", S "gcp", S "google cloud", S "docker", S "kubernetes",
     S "terraform", S "jenkins", S "gitlab ci", S "github actions",
     S "circleci", S "travis ci", S "ansible", S "puppet", S "chef",
     S "vagrant", S "helm", S "istio", S "prometheus", S "grafana",
     S "elk stack"]),
   (S "mobile_development",
    [S "ios", S "android", S "react native", S "flutter", S "swift",
     S "kotlin", S "xamarin", S "ionic", S "cordova", S "phonegap", S "unity",
     S "unreal engine", S "cocos2d", S "titanium"]),
   (S "design",
    [S "ui/ux", S "photoshop", S "illustrator", S "figma", S "sketch",
     S "adobe xd", S "indesign", S "after effects", S "premiere pro",
     S "blender", S "maya", S "3ds max", S "cinema 4d", S "zbrush",
     S "substance painter", S "canva", S "invision", S "principle",
     S "framer"]),
   (S "project_management",
    [S "agile", S "scrum", S "kanban", S "jira", S "confluence", S "trello",
     S "asana", S "monday.com", S "project management", S "pmp", S "prince2",
     S "lean", S "six sigma", S "waterfall", S "risk management",
     S "stakeholder management", S "budget management"]),
   (S "soft_skills",
    [S "leadership", S "communication", S "teamwork", S "problem solving",
     S "analytical thinking", S "critical thinking", S "creativity",
     S "adaptability", S "time management", S "negotiation", S "presentation",
     S "public speaking", S "mentoring", S "coaching", S "conflict resolution"]),
   (S "cybersecurity",
    [S "cybersecurity", S "information security", S "penetration testing",
     S "ethical hacking", S "vulnerability assessment", S "incident response",
     S "forensics", S "compliance", S "risk assessment", S "security audit",
     S "firewall", S "ids", S "ips", S "siem", S "soc"]),
   (S "devops",
    [S "devops", S "ci/cd", S "continuous integration",
     S "continuous deployment", S "automation", S "infrastructure as code",
     S "monitoring", S "logging", S "containerization", S "orchestration",
     S "microservices", S "serverless", S "lambda", S "api gateway",
     S "load balancing"])]

/-- Embedding of `_assess_skill_proficiency` (operates on the lowercased
text, as called). -/
def assessProficiency (skill tl : Str) : Str :=
  let ctx := joinSp (((splitOnChar '.' tl).filter
    (fun s => substr skill (toLowerStr s))).map toLowerStr)
  let ec := ([S "expert", S "advanced", S "senior", S "lead", S "architect",
    S "specialist", S "years"].filter (fun i => substr i ctx)).length
  let ic := ([S "experienced", S "proficient", S "skilled", S "familiar",
    S "working knowledge"].filter (fun i => substr i ctx)).length
  let bc := ([S "basic", S "beginner", S "learning", S "exposure",
    S "introduction"].filter (fun i => substr i ctx)).length
  if 0 < ec then S "expert"
  else if 0 < ic then S "intermediate"
  else if 0 < bc then S "beginner"
  else S "intermediate"

/-- The nested skill loop of `_extract_skills`: first occurrence per
lowercased name wins. -/
def spacySkillsLoop (tl : Str) : List (Str × Str) → List Str → List BSkill
  | [], _ => []
  | (cat, sk) :: rest, found =>
    let skl := toLowerStr sk
    if substr skl tl ∧ skl ∉ found then
      { name := pyTitle sk, category := pyTitle (replaceChar '_' ' ' cat),
        proficiency_level := assessProficiency skl tl,
        mentioned_count := countSubstr skl tl } ::
        spacySkillsLoop tl rest (skl :: found)
    else spacySkillsLoop tl rest found

/-- Lexicographic strict order on strings by character code, the order
Python uses to compare the proficiency strings in the sort key. -/
def strLtB : Str → Str → Bool
  | [], [] => false
  | [], _ :: _ => true
  | _ :: _, [] => false
  | a :: as, b :: bs => if a < b then true else if b < a then false else strLtB as bs

/-- Python tuple `<=` on the `(mentioned_count, proficiency_level)` sort
key. -/
def skillKeyLe (a b : ℕ × Str) : Bool :=
  a.1 < b.1 || (a.1 = b.1 && (strLtB a.2 b.2 || a.2 == b.2))

/-- Embedding of `_extract_skills`: keyword scan, stable descending sort by
`(mentioned_count, proficiency_level)`, first fifty. -/
def spacyExtractSkills (text : Str) : List BSkill :=
  let tl := toLowerStr text
  let pairs := skillsDb.flatMap (fun p => p.2.map (fun s => (p.1, s)))
  (isortDesc (fun a b => skillKeyLe (a.mentioned_count, a.proficiency_level)
      (b.mentioned_count, b.proficiency_level))
    (spacySkillsLoop tl pairs [])).take 50

/-- Embedding of `_extract_personal_info` (NER entities from the
environment). -/
def spacyExtractPersonalInfo (senv : SpacyEnv) (text : Str) : PersonalInfo :=
  let names := senv.persons text
  let locs := senv.gpeLocs text
  { full_name := names.head?,
    first_name := names.head?.map (fun n => (wordsOf n).headD []),
    last_name := names.head?.map
      (fun n => if 1 < (wordsOf n).length then lastStr (wordsOf n) else []),
    location := locs.head? }

/-- Embedding of `_extract_contact_info`: matcher results first, then the
regex fallbacks for a missing email or phone. -/
def spacyExtractContactInfo (senv : SpacyEnv) (text : Str) : ContactInfo :=
  let m := senv.contactM text
  { email := match m.email with | some e => some e | none => emailSearch text,
    phone := match m.phone with | some p => some p | none => phoneSearch text,
    linkedin := m.linkedin, github := m.github, website := m.website }

/-- The group-only `re.findall(r'\b(19|20)\d{2}\b', text)` of
`_extract_education`: each match contributes its first two characters (the
capture group), not the full year. -/
def yearTokAt (prev : Option Char) (t : Str) : Option (Str × Str) :=
  if boundaryB prev t.head? ∧ (t.take 4).length = 4 ∧ (t.take 4).all Char.isDigit ∧
      (strPre (S "19") t ∨ strPre (S "20") t) ∧ ¬ wOpt (t.drop 4).head? then
    some (t.take 2, t.drop 4)
  else none

/-- `re.findall` of the year pattern, returning the `(19|20)` groups. -/
def findYearGroups (text : Str) : List Str :=
  finditer1 (fun prev t =>
    match yearTokAt prev t with
    | some (g, rem) => some (g, rem)
    | none => none) (text.length + 1) none text

/-- Fields-of-study list of `_extract_field_of_study`. -/
def studyFields : List Str :=
  [S "computer science", S "engineering", S "business", S "mathematics",
   S "physics", S "chemistry", S "biology", S "economics", S "finance",
   S "marketing", S "psychology", S "sociology", S "history", S "literature",
   S "art", S "design", S "medicine", S "law"]

/-- Embedding of `_extract_field_of_study`. -/
def extractFieldOfStudy (degree text : Str) : Str :=
  match studyFields.find? (fun f =>
    substr f (toLowerStr degree) || substr f (toLowerStr text)) with
  | some f => pyTitle f
  | none => []

/-- Embedding of `_extract_education`: positional pairing of matcher-found
degrees with universities and year-pattern groups. -/
def spacyExtractEducation (senv : SpacyEnv) (text : Str) : List BEdu :=
  let degrees := senv.degs text
  let universities := senv.univs text
  let years := findYearGroups text
  degrees.enum.map (fun p =>
    { degree := p.2,
      institution := (universities.get? p.1).getD [],
      year := (years.get? p.1).getD [],
      field_of_study := extractFieldOfStudy p.2 text })

/-- A partially-built experience section (a Python dict with optional
keys). -/
structure SecRec where
  title : Option Str
  company : Option Str
  duration : Option Str
  description : Option Str
deriving DecidableEq, Repr

/-- Truthiness of a section dict: at least one key set. -/
def secNonempty (s : SecRec) : Bool :=
  s.title.isSome || s.company.isSome || s.duration.isSome || s.description.isSome

/-- Experience-section headers of `_extract_experience_sections`. -/
def expHeaders : List Str :=
  [S "experience", S "work experience", S "professional experience",
   S "employment", S "career", S "work history", S "professional background"]

/-- Embedding of `_looks_like_job_title`. -/
def looksLikeJobTitle (line : Str) : Bool :=
  [S "engineer", S "developer", S "manager", S "analyst", S "specialist",
   S "consultant", S "director", S "coordinator", S "assistant", S "associate",
   S "lead", S "senior", S "junior"].any (fun k => substr k (toLowerStr line))

/-- Embedding of `_looks_like_company`. -/
def looksLikeCompany (line : Str) : Bool :=
  [S "inc", S "corp", S "ltd", S "llc", S "company", S "technologies",
   S "solutions"].any (fun k => substr k (toLowerStr line))

/-- Embedding of `_looks_like_duration` (a line containing a
`\b(19|20)\d{2}\b` match). -/
def looksLikeDuration (line : Str) : Bool :=
  (searchWithPrev yearTokAt none line).isSome

/-- The line loop of `_extract_experience_sections`. -/
def expSectionsLoop : Bool → SecRec → List Str → List SecRec
  | _, current, [] => if secNonempty current then [current] else []
  | inSec, current, l :: rest =>
    let ll := stripStr (toLowerStr l)
    if expHeaders.any (fun h => substr h ll) then
      expSectionsLoop true current rest
    else if inSec ∧ [S "education", S "skills", S "projects"].any
        (fun h => substr h ll) then
      (if secNonempty current then [current] else []) ++
        expSectionsLoop false ⟨none, none, none, none⟩ rest
    else if inSec ∧ stripStr l ≠ [] then
      if looksLikeJobTitle l then
        (if secNonempty current then [current] else []) ++
          expSectionsLoop inSec ⟨some (stripStr l), none, none, none⟩ rest
      else if looksLikeCompany l then
        expSectionsLoop inSec { current with company := some (stripStr l) } rest
      else if looksLikeDuration l then
        expSectionsLoop inSec { current with duration := some (stripStr l) } rest
      else
        let newDesc :=
          match current.description with
          | none => stripStr l
          | some d => d ++ S " " ++ stripStr l
        expSectionsLoop inSec { current with description := some newDesc } rest
    else expSectionsLoop inSec current rest

/-- Embedding of `_extract_experience_sections`. -/
def expSections (text : Str) : List SecRec :=
  expSectionsLoop false ⟨none, none, none, none⟩ (splitOnChar '\n' text)

/-- Embedding of `_extract_experience`. -/
def spacyExtractExperience (text : Str) : List BExp :=
  (expSections text).map (fun s =>
    { job_title := s.title.getD [], company := s.company.getD [],
      duration := s.duration.getD [], description := s.description.getD [],
      start_date := [], end_date := [] })

/-- Summary headers of `_extract_summary`. -/
def summaryHeaders : List Str :=
  [S "summary", S "professional summary", S "objective", S "profile",
   S "about", S "overview", S "introduction", S "career objective"]

/-- The line loop of `_extract_summary`: collect stripped lines between a
summary header and the next `experience`/`education`/`skills` header.  No
length truncation is applied by the source. -/
def spacySummaryLoop : Bool → List Str → List Str
  | _, [] => []
  | inS, l :: rest =>
    let ll := stripStr (toLowerStr l)
    if summaryHeaders.any (fun h => substr h ll) then spacySummaryLoop true rest
    else if inS ∧ [S "experience", S "education", S "skills"].any
        (fun h => substr h ll) then []
    else if inS ∧ stripStr l ≠ [] then stripStr l :: spacySummaryLoop inS rest
    else spacySummaryLoop inS rest

/-- Embedding of `_extract_summary` of the spaCy parser. -/
def spacyExtractSummary (text : Str) : Str :=
  joinSp (spacySummaryLoop false (splitOnChar '\n' text))

/-- The domains table of `_identify_domain_expertise` of the spaCy parser. -/
def spacyDomains : List (Str × List Str) :=
  [(S "technology", [S "software", S "tech", S "it", S "programming",
     S "development", S "engineering"]),
   (S "finance", [S "finance", S "banking", S "investment", S "trading",
     S "financial"]),
   (S "healthcare", [S "healthcare", S "medical", S "hospital",
     S "pharmaceutical", S "clinical"]),
   (S "education", [S "education", S "teaching", S "academic", S "university",
     S "school"]),
   (S "retail", [S "retail", S "sales", S "customer", S "commerce",
     S "marketing"]),
   (S "manufacturing", [S "manufacturing", S "production", S "operations",
     S "supply chain"]),
   (S "consulting", [S "consulting", S "advisory", S "strategy",
     S "management"]),
   (S "government", [S "government", S "public", S "policy",
     S "administration"]),
   (S "nonprofit", [S "nonprofit", S "ngo", S "charity", S "social",
     S "community"])]

/-- Embedding of `_identify_domain_expertise` of the spaCy parser (at least
two keyword hits, no length cap). -/
def spacyIdentifyDomains (text : Str) : List Str :=
  let tl := toLowerStr text
  (spacyDomains.filter
    (fun p => 2 ≤ (p.2.filter (fun k => substr k tl)).length)).map Prod.fst

/-- Embedding of `_calculate_confidence_score` of the spaCy parser. -/
def spacyConfidence (pi : PersonalInfo) (ci : ContactInfo) (skills : List BSkill)
    (education : List BEdu) (experience : List BExp) : ℚ :=
  let score : ℚ :=
    (if otruthy pi.full_name then 1.0 else 0) +
    ((if otruthy ci.email then 0.5 else 0) + (if otruthy ci.phone then 0.5 else 0)) +
    (if 5 ≤ skills.length then 1.0 else if 2 ≤ skills.length then 0.5 else 0) +
    (if education ≠ [] then 1.0 else 0) +
    (if experience ≠ [] then 1.0 else 0)
  pyRound2 (score / 5)

/-- Embedding of `_calculate_completeness_score` of the spaCy parser. -/
def spacyCompleteness (pi : PersonalInfo) (ci : ContactInfo) (skills : List BSkill)
    (education : List BEdu) (experience : List BExp) (summary : Str) : ℚ :=
  let completed : ℚ :=
    (if otruthy pi.full_name then 1 else 0) +
    (if otruthy ci.email || otruthy ci.phone then 1 else 0) +
    (if skills ≠ [] then 1 else 0) +
    (if education ≠ [] then 1 else 0) +
    (if experience ≠ [] then 1 else 0) +
    (if summary ≠ [] then 1 else 0)
  pyRound2 (completed / 6)

/-- Image extensions handled by `_extract_text_from_file` of the spaCy
parser and by `_parse_with_local_ocr`. -/
def sixImageExts : List Str :=
  [S "png", S "jpg", S "jpeg", S "gif", S "bmp", S "tiff"]

/-- File extension with the `'txt'` default for an empty filename, as
computed by the provider functions. -/
def fileExtD (f : RFile) : Str :=
  if f.filename = [] then S "txt" else extOf f.filename

/-- Embedding of `_extract_text_from_file` of the spaCy parser; `none`
models a raised extraction error. -/
def spacyExtractText (senv : SpacyEnv) (f : RFile) : Option Str :=
  let ext := fileExtD f
  if ext = S "pdf" then senv.pdf f
  else if ext = S "doc" ∨ ext = S "docx" then senv.docx f
  else if sixImageExts.contains ext then senv.image f
  else some f.content

/-- Embedding of `SpacyResumeParser.parse_resume`.  `now` is
`datetime.now().isoformat()`. -/
def spacyParseResume (senv : SpacyEnv) (now : Str) (f : RFile) : PResult :=
  match spacyExtractText senv f with
  | none =>
    { success := false, error := some (S "spaCy parsing failed: Text extraction failed"),
      dta := none, raw_text := none, provider := none }
  | some text =>
    if (stripStr text).length < 50 then
      { success := false,
        error := some (S "Insufficient text content extracted from file"),
        dta := none, raw_text := none, provider := none }
    else
      let pi := spacyExtractPersonalInfo senv text
      let ci := spacyExtractContactInfo senv text
      let sk := spacyExtractSkills text
      let ed := spacyExtractEducation senv text
      let ex := spacyExtractExperience text
      let summ := spacyExtractSummary text
      { success := true, error := none,
        dta := some
          { personal_info := pi, contact_info := ci, summary := summ,
            skills := sk, education := ed, work_experience := ex,
            domain_expertise := spacyIdentifyDomains text,
            parsing_metadata :=
              { provider := S "spacy_nlp",
                confidence_score := spacyConfidence pi ci sk ed ex,
                completeness_score := spacyCompleteness pi ci sk ed ex summ,
                parsed_at := now, text_length := text.length,
                entities_found := some (senv.entsCount text),
                sentences_count := some (senv.sentsCount text) } },
        raw_text := some text, provider := some (S "spacy_nlp") }

/-! ## Enhanced parsing service (`enhanced_resume_parser.py`)

The service's provider functions and fallback chain are translated from
source; the external calls they make (cloud OCR request, Tesseract, PyPDF2,
python-docx, the spaCy library availability) are environment functions.
`ocrText f = none` models every failure mode of `_parse_with_ocr_space`
before text is obtained (missing API key, HTTP error, API-reported error,
exception); `spacyRaises` models an exception escaping the
`spacy_resume_parser.parse_resume` call itself. -/

/-- Environment of external calls made by `EnhancedResumeParsingService`. -/
structure EParserEnv where
  senv : SpacyEnv
  spacyRaises : Bool
  ocrText : RFile → Option Str
  imageOcr : RFile → Option Str
  pdfOcr : RFile → Option Str
  pdfText : RFile → Option Str
  docxText : RFile → Option Str

/-- `ALLOWED_EXTENSIONS` of both parsing services. -/
def ALLOWED_EXTS : List Str :=
  [S "pdf", S "doc", S "docx", S "txt", S "rtf", S "png", S "jpg", S "jpeg", S "gif"]

/-- `MAX_FILE_SIZE` (10 MB). -/
def MAX_FILE_SIZE : ℕ := 10 * 1024 * 1024

/-- Embedding of `_validate_file`: reject oversized files; check the
extension only when a filename is present, otherwise accept. -/
def validateFile (f : RFile) : Bool :=
  if MAX_FILE_SIZE < f.content.length then false
  else if f.filename ≠ [] then ALLOWED_EXTS.contains (extOf f.filename)
  else true

/-- Overwrite the provider tag of parsed data, as the provider functions do
after `_parse_text_content`. -/
def withProvider (p : Str) (d : ParsedData) : ParsedData :=
  { d with parsing_metadata := { d.parsing_metadata with provider := p } }

/-- Embedding of `_parse_with_text_extraction` (the terminal provider:
its failure is returned, not forwarded). -/
def parseWithTextExtraction (env : EParserEnv) (now : Str) (f : RFile) : PResult :=
  let ext := fileExtD f
  let tOpt : Option Str :=
    if ext = S "pdf" then env.pdfText f
    else if ext = S "doc" ∨ ext = S "docx" then env.docxText f
    else some f.content
  match tOpt with
  | none =>
    { success := false, error := some (S "Text extraction failed"),
      dta := none, raw_text := none, provider := none }
  | some t =>
    if t = [] ∨ (stripStr t).length < 10 then
      { success := false,
        error := some (S "Text extraction failed: No text content extracted"),
        dta := none, raw_text := none, provider := none }
    else
      { success := true, error := none,
        dta := some (withProvider (S "text_extraction") (parseTextContent now t)),
        raw_text := some t, provider := some (S "text_extraction") }

/-- Embedding of `_parse_with_local_ocr`: OCR images and PDFs, fall back to
text extraction for other extensions, on any failure, or on under-10
characters of extracted text. -/
def parseWithLocalOcr (env : EParserEnv) (now : Str) (f : RFile) : PResult :=
  let ext := fileExtD f
  if sixImageExts.contains ext then
    match env.imageOcr f with
    | none => parseWithTextExtraction env now f
    | some t =>
      if t = [] ∨ (stripStr t).length < 10 then parseWithTextExtraction env now f
      else
        { success := true, error := none,
          dta := some (withProvider (S "local_ocr") (parseTextContent now t)),
          raw_text := some t, provider := some (S "local_ocr") }
  else if ext = S "pdf" then
    match env.pdfOcr f with
    | none => parseWithTextExtraction env now f
    | some t =>
      if t = [] ∨ (stripStr t).length < 10 then parseWithTextExtraction env now f
      else
        { success := true, error := none,
          dta := some (withProvider (S "local_ocr") (parseTextContent now t)),
          raw_text := some t, provider := some (S "local_ocr") }
  else parseWithTextExtraction env now f

/-- Embedding of `_parse_with_ocr_space`: on any failure of the cloud OCR
call, or on empty extracted text, fall back to local OCR. -/
def parseWithOcrSpace (env : EParserEnv) (now : Str) (f : RFile) : PResult :=
  match env.ocrText f with
  | none => parseWithLocalOcr env now f
  | some t =>
    if t = [] then parseWithLocalOcr env now f
    else
      { success := true, error := none,
        dta := some (withProvider (S "ocr_space") (parseTextContent now t)),
        raw_text := some t, provider := some (S "ocr_space") }

/-- Embedding of `_parse_with_spacy`: an exception from the spaCy parser
call falls back directly to text extraction; otherwise the spaCy result is
returned as is (including its internal failure results). -/
def parseWithSpacy (env : EParserEnv) (now : Str) (f : RFile) : PResult :=
  if env.spacyRaises then parseWithTextExtraction env now f
  else spacyParseResume env.senv now f

/-- Embedding of `EnhancedResumeParsingService.parse_resume`: validate,
then dispatch on the provider name; a name that is not one of the four
registered providers is replaced by the default `'spacy_nlp'`. -/
def enhancedParseResume (env : EParserEnv) (now : Str) (f : RFile) (provider : Str) :
    PResult :=
  if ¬ validateFile f then
    { success := false, error := some (S "Invalid file format or size"),
      dta := none, raw_text := none, provider := none }
  else if provider = S "ocr_space" then parseWithOcrSpace env now f
  else if provider = S "local_ocr" then parseWithLocalOcr env now f
  else if provider = S "text_extraction" then parseWithTextExtraction env now f
  else parseWithSpacy env now f

/-! ## Legacy parsing service (`resume_parser.py`)

Only the validation and provider dispatch of
`ResumeParsingService.parse_resume` are translated; the three provider
bodies, the data enhancement step and `secure_filename` involve
network/OCR/file externals and the process clock and are environment
functions. -/

/-- Environment of `ResumeParsingService`. -/
structure LegacyEnv where
  secureName : Str → Str
  ocrSpace : RFile → Str → PResult
  localOcr : RFile → Str → PResult
  textExtract : RFile → Str → PResult
  enhance : ParsedData → ParsedData

/-- Embedding of `_allowed_file` of the legacy service. -/
def legacyAllowedFile (filename : Str) : Bool :=
  filename.contains '.' &&
    ALLOWED_EXTS.contains (toLowerStr (lastStr (splitOnChar '.' filename)))

/-- Embedding of `validate_file` of the legacy service (the `not file`
branch is unrepresentable: a file record always exists). -/
def legacyValidate (f : RFile) : Bool × Str :=
  if f.filename = [] then (false, S "No file selected")
  else if ¬ legacyAllowedFile f.filename then (false, S "File type not allowed")
  else if MAX_FILE_SIZE < f.content.length then (false, S "File too large")
  else (true, S "File is valid")

/-- Embedding of `ResumeParsingService.parse_resume`: validate, dispatch on
the provider (an unrecognized name uses `_parse_with_text_extraction`), and
enhance the data of a successful result. -/
def legacyParseResume (lenv : LegacyEnv) (f : RFile) (provider : Str) : PResult :=
  match legacyValidate f with
  | (false, msg) =>
    { success := false, error := some msg, dta := none, raw_text := none,
      provider := none }
  | (true, _) =>
    let filename := lenv.secureName f.filename
    let ext := toLowerStr (lastStr (splitOnChar '.' filename))
    let result :=
      if provider = S "ocr_space" then lenv.ocrSpace f ext
      else if provider = S "local_ocr" then lenv.localOcr f ext
      else if provider = S "text_extraction" then lenv.textExtract f ext
      else lenv.textExtract f ext
    if result.success then { result with dta := result.dta.map lenv.enhance }
    else result

/-! ## Parser fixtures -/

/-- spaCy environment in which the NLP pipeline finds no entities and no
matcher hits. -/
def trivialSpacyEnv : SpacyEnv :=
  { persons := fun _ => [], gpeLocs := fun _ => [],
    contactM := fun _ => ⟨none, none, none, none, none⟩,
    degs := fun _ => [], univs := fun _ => [],
    entsCount := fun _ => 0, sentsCount := fun _ => 0,
    pdf := fun _ => none, docx := fun _ => none, image := fun _ => none }

/-- Enhanced-service environment: spaCy available, every OCR and binary
reader unavailable. -/
def baseEnv : EParserEnv :=
  { senv := trivialSpacyEnv, spacyRaises := false, ocrText := fun _ => none,
    imageOcr := fun _ => none, pdfOcr := fun _ => none,
    pdfText := fun _ => none, docxText := fun _ => none }

/-- Environment in which the spaCy call raises and cloud OCR extracts
text. -/
def ocrEnv : EParserEnv :=
  { baseEnv with
    spacyRaises := true,
    ocrText := fun _ => some (S "ocr text obtained from the cloud service") }

/-- Environment in which every provider's external step fails. -/
def failEnv : EParserEnv := { baseEnv with spacyRaises := true }

/-- A long single line (639 characters) free of section keywords. -/
def longLine : Str := joinSp (List.replicate 80 (S "abcdefg"))

/-- A resume text whose summary section holds more than 500 characters. -/
def sumText : Str := S "Summary\n" ++ longLine

/-- A plain-text resume file with that long summary. -/
def sumFile : RFile := { filename := S "resume.txt", content := sumText }

/-- A small plain-text resume file. -/
def txtFile : RFile := { filename := S "resume.txt", content := S "plain resume text content" }

/-- A failure result used by stub environments. -/
def stubFail : PResult :=
  { success := false, error := none, dta := none, raw_text := none, provider := none }

/-- Legacy-service environment whose provider calls all fail. -/
def stubLegacyEnv : LegacyEnv :=
  { secureName := id, ocrSpace := fun _ _ => stubFail, localOcr := fun _ _ => stubFail,
    textExtract := fun _ _ => stubFail, enhance := id }

/-! ## Claim theorems for the parsing services -/

/-- C10: a file within the 10 MB limit whose filename is absent or empty
passes `_validate_file` with no extension check, and `parse_resume`
proceeds to the selected provider's extraction. -/
theorem c10_empty_filename_accepted (env : EParserEnv) (now : Str) (content : Str)
    (h : content.length ≤ MAX_FILE_SIZE) :
    validateFile { filename := [], content := content } = true ∧
    enhancedParseResume env now { filename := [], content := content }
        (S "text_extraction") =
      parseWithTextExtraction env now { filename := [], content := content } := by
  have hv : validateFile ⟨[], content⟩ = true := by
    unfold validateFile
    rw [if_neg (not_lt.mpr h)]
    simp
  refine ⟨hv, ?_⟩
  simp +decide [enhancedParseResume, hv]

/-- C10 witness: a five-byte file with no filename is accepted and handed
to text extraction. -/
theorem c10_empty_filename_accepted_witness :
    validateFile { filename := [], content := S "hello" } = true ∧
    enhancedParseResume baseEnv (S "t") { filename := [], content := S "hello" }
        (S "text_extraction") =
      parseWithTextExtraction baseEnv (S "t") { filename := [], content := S "hello" } :=
  c10_empty_filename_accepted baseEnv (S "t") (S "hello") (by decide)

set_option maxRecDepth 100000 in
/-- C8 counterexample: on a text whose summary section holds 639
characters, the spaCy provider parses successfully and returns a summary
longer than 500 characters — `_extract_summary` of
`spacy_resume_parser.py` never truncates. -/
theorem c8_summary_truncation_counterexample :
    (spacyParseResume trivialSpacyEnv (S "t") sumFile).success = true ∧
    500 < ((spacyParseResume trivialSpacyEnv (S "t") sumFile).dta.map
      (fun d => d.summary.length)).getD 0 := by
  with_unfolding_all decide

/-- C8 (amended): the basic text-extraction pipeline truncates the summary
to at most 500 characters (`_extract_basic_summary` and therefore
`_parse_text_content`); the spaCy provider's summary is not truncated. -/
theorem c8_summary_truncation_amended (now : Str) (text : Str) :
    (extractBasicSummary text).length ≤ 500 ∧
    (parseTextContent now text).summary.length ≤ 500 := by
  have h : (extractBasicSummary text).length ≤ 500 := by
    unfold extractBasicSummary
    rcases hf : (splitOnPair '\n' '\n' text).find?
        (fun p => 50 < (stripStr p).length) with _ | p
    · simp
    · simp only []
      exact List.length_take_le 500 _
  exact ⟨h, h⟩

set_option maxRecDepth 100000 in
/-- C3 counterexample: the enhanced service maps an unrecognized provider
name to the default spaCy provider, not to text extraction — the result
carries the `spacy_nlp` provider tag and differs from the
`text_extraction` result. -/
theorem c3_unrecognized_provider_counterexample :
    (enhancedParseResume baseEnv (S "t") sumFile (S "bogus_provider")).provider =
      some (S "spacy_nlp") ∧
    (enhancedParseResume baseEnv (S "t") sumFile (S "text_extraction")).provider =
      some (S "text_extraction") ∧
    enhancedParseResume baseEnv (S "t") sumFile (S "bogus_provider") ≠
      enhancedParseResume baseEnv (S "t") sumFile (S "text_extraction") := by
  have h1 : (enhancedParseResume baseEnv (S "t") sumFile (S "bogus_provider")).provider =
      some (S "spacy_nlp") := by with_unfolding_all decide
  have h2 : (enhancedParseResume baseEnv (S "t") sumFile (S "text_extraction")).provider =
      some (S "text_extraction") := by with_unfolding_all decide
  refine ⟨h1, h2, fun heq => ?_⟩
  rw [heq, h2] at h1
  exact absurd h1 (by decide)

/-- C3 (amended): in the enhanced service an unrecognized provider name is
silently replaced by the default `'spacy_nlp'` provider; in the legacy
service (`resume_parser.py`) it silently uses `_parse_with_text_extraction`,
the same call as provider `'text_extraction'`. -/
theorem c3_unrecognized_provider_amended (env : EParserEnv) (lenv : LegacyEnv)
    (now : Str) (f : RFile) (p : Str) (h0 : p ≠ S "spacy_nlp")
    (h1 : p ≠ S "ocr_space") (h2 : p ≠ S "local_ocr") (h3 : p ≠ S "text_extraction") :
    enhancedParseResume env now f p = enhancedParseResume env now f (S "spacy_nlp") ∧
    legacyParseResume lenv f p = legacyParseResume lenv f (S "text_extraction") := by
  constructor
  · simp +decide [enhancedParseResume, h1, h2, h3]
  · simp +decide [legacyParseResume, h1, h2, h3]

/-- C3 witness: the provider name `bogus_provider` behaves like
`spacy_nlp` in the enhanced service and like `text_extraction` in the
legacy service. -/
theorem c3_unrecognized_provider_witness :
    enhancedParseResume baseEnv (S "t") sumFile (S "bogus_provider") =
      enhancedParseResume baseEnv (S "t") sumFile (S "spacy_nlp") ∧
    legacyParseResume stubLegacyEnv sumFile (S "bogus_provider") =
      legacyParseResume stubLegacyEnv sumFile (S "text_extraction") :=
  c3_unrecognized_provider_amended baseEnv stubLegacyEnv (S "t") sumFile
    (S "bogus_provider") (by decide) (by decide) (by decide) (by decide)

/-! ## Fallback-chain lemmas (enhanced service) -/

/-- If local OCR produces a failure result, that failure came from its
text-extraction fallback. -/
theorem localOcrFailProp (env : EParserEnv) (now : Str) (f : RFile)
    (h : (parseWithLocalOcr env now f).success = false) :
    (parseWithTextExtraction env now f).success = false := by
  simp only [parseWithLocalOcr] at h
  split at h
  · split at h
    · exact h
    · split at h
      · exact h
      · simp at h
  · split at h
    · split at h
      · exact h
      · split at h
        · exact h
        · simp at h
    · exact h

/-- C2 counterexample: with spaCy raising and cloud OCR able to extract
text, the spaCy provider's result is the text-extraction result, not the
cloud-OCR result — an exception in the NLP step skips the OCR providers
instead of falling back to the next provider in the chain. -/
theorem c2_fallback_chain_counterexample :
    parseWithSpacy ocrEnv (S "t") txtFile = parseWithTextExtraction ocrEnv (S "t") txtFile ∧
    (parseWithSpacy ocrEnv (S "t") txtFile).provider = some (S "text_extraction") ∧
    (parseWithOcrSpace ocrEnv (S "t") txtFile).provider = some (S "ocr_space") ∧
    parseWithSpacy ocrEnv (S "t") txtFile ≠ parseWithOcrSpace ocrEnv (S "t") txtFile := by
  have h1 : (parseWithSpacy ocrEnv (S "t") txtFile).provider =
      some (S "text_extraction") := by with_unfolding_all decide
  have h2 : (parseWithOcrSpace ocrEnv (S "t") txtFile).provider =
      some (S "ocr_space") := by with_unfolding_all decide
  refine ⟨rfl, h1, h2, fun heq => ?_⟩
  rw [heq, h2] at h1
  exact absurd h1 (by decide)

/-- C2 (amended): the fallback chain is: spaCy exception → text
extraction directly; cloud-OCR failure or empty text → local OCR; local
OCR on a non-image non-PDF file, or local-OCR failure/short text → text
extraction; text extraction is terminal, so a failure of any provider
chain surfaces only as the text-extraction failure. -/
theorem c2_fallback_chain_amended (env : EParserEnv) (now : Str) (f : RFile) :
    (env.spacyRaises = true →
      parseWithSpacy env now f = parseWithTextExtraction env now f) ∧
    (env.ocrText f = none →
      parseWithOcrSpace env now f = parseWithLocalOcr env now f) ∧
    (env.ocrText f = some [] →
      parseWithOcrSpace env now f = parseWithLocalOcr env now f) ∧
    (sixImageExts.contains (fileExtD f) = true → env.imageOcr f = none →
      parseWithLocalOcr env now f = parseWithTextExtraction env now f) ∧
    (fileExtD f = S "pdf" → env.pdfOcr f = none →
      parseWithLocalOcr env now f = parseWithTextExtraction env now f) ∧
    (sixImageExts.contains (fileExtD f) = false → fileExtD f ≠ S "pdf" →
      parseWithLocalOcr env now f = parseWithTextExtraction env now f) ∧
    ((parseWithOcrSpace env now f).success = false →
      (parseWithTextExtraction env now f).success = false) ∧
    ((parseWithLocalOcr env now f).success = false →
      (parseWithTextExtraction env now f).success = false) ∧
    (env.spacyRaises = true → (parseWithSpacy env now f).success = false →
      (parseWithTextExtraction env now f).success = false) := by
  refine ⟨?_, ?_, ?_, ?_, ?_, ?_, ?_, ?_, ?_⟩
  · intro hs
    simp [parseWithSpacy, hs]
  · intro h
    simp [parseWithOcrSpace, h]
  · intro h
    simp [parseWithOcrSpace, h]
  · intro hi ho
    simp only [parseWithLocalOcr, if_pos hi, ho]
  · intro hp ho
    have hi : ¬ (sixImageExts.contains (fileExtD f) = true) := by
      rw [hp]; decide
    simp only [parseWithLocalOcr, if_neg hi, if_pos hp, ho]
  · intro hi hp
    have hi' : ¬ (sixImageExts.contains (fileExtD f) = true) := by rw [hi]; decide
    simp only [parseWithLocalOcr, if_neg hi', if_neg hp]
  · intro h
    simp only [parseWithOcrSpace] at h
    split at h
    · exact localOcrFailProp env now f h
    · split at h
      · exact localOcrFailProp env now f h
      · simp at h
  · exact localOcrFailProp env now f
  · intro hs h
    simp only [parseWithSpacy, if_pos hs] at h
    exact h

/-- C2 witness: in an environment where every provider's external step
fails, the amended fallback edges hold on a plain-text file. -/
theorem c2_fallback_chain_witness :
    parseWithSpacy failEnv (S "t") txtFile = parseWithTextExtraction failEnv (S "t") txtFile ∧
    parseWithOcrSpace failEnv (S "t") txtFile = parseWithLocalOcr failEnv (S "t") txtFile ∧
    parseWithLocalOcr failEnv (S "t") txtFile = parseWithTextExtraction failEnv (S "t") txtFile :=
  ⟨(c2_fallback_chain_amended failEnv (S "t") txtFile).1 rfl,
   (c2_fallback_chain_amended failEnv (S "t") txtFile).2.1 rfl,
   (c2_fallback_chain_amended failEnv (S "t") txtFile).2.2.2.2.2.1 (by decide) (by decide)⟩

/-! ## Determinism of parsing (clock independence) -/

/-- Erase the `parsed_at` timestamp of parsed data. -/
def stripD (d : ParsedData) : ParsedData :=
  { d with parsing_metadata := { d.parsing_metadata with parsed_at := [] } }

/-- Erase the `parsed_at` timestamp of a parse result. -/
def stripTimes (r : PResult) : PResult :=
  { r with dta := r.dta.map stripD }

/-- Text extraction depends on the clock only through `parsed_at`. -/
theorem stripTimes_textExtr (env : EParserEnv) (f : RFile) (n1 n2 : Str) :
    stripTimes (parseWithTextExtraction env n1 f) =
      stripTimes (parseWithTextExtraction env n2 f) := by
  simp only [parseWithTextExtraction]
  rcases h : (if fileExtD f = S "pdf" then env.pdfText f
      else if fileExtD f = S "doc" ∨ fileExtD f = S "docx" then env.docxText f
      else some f.content) with _ | t
  · rfl
  · by_cases ht : t = [] ∨ (stripStr t).length < 10
    · simp only [if_pos ht]
    · simp only [if_neg ht]
      rfl

/-- Local OCR depends on the clock only through `parsed_at`. -/
theorem stripTimes_localOcr (env : EParserEnv) (f : RFile) (n1 n2 : Str) :
    stripTimes (parseWithLocalOcr env n1 f) =
      stripTimes (parseWithLocalOcr env n2 f) := by
  simp only [parseWithLocalOcr]
  by_cases hi : sixImageExts.contains (fileExtD f) = true
  · simp only [if_pos hi]
    rcases h : env.imageOcr f with _ | t
    · exact stripTimes_textExtr env f n1 n2
    · by_cases ht : t = [] ∨ (stripStr t).length < 10
      · simp only [if_pos ht]
        exact stripTimes_textExtr env f n1 n2
      · simp only [if_neg ht]
        rfl
  · simp only [if_neg hi]
    by_cases hp : fileExtD f = S "pdf"
    · simp only [if_pos hp]
      rcases h : env.pdfOcr f with _ | t
      · exact stripTimes_textExtr env f n1 n2
      · by_cases ht : t = [] ∨ (stripStr t).length < 10
        · simp only [if_pos ht]
          exact stripTimes_textExtr env f n1 n2
        · simp only [if_neg ht]
          rfl
    · simp only [if_neg hp]
      exact stripTimes_textExtr env f n1 n2

/-- Cloud OCR depends on the clock only through `parsed_at`. -/
theorem stripTimes_ocrSpace (env : EParserEnv) (f : RFile) (n1 n2 : Str) :
    stripTimes (parseWithOcrSpace env n1 f) =
      stripTimes (parseWithOcrSpace env n2 f) := by
  simp only [parseWithOcrSpace]
  rcases h : env.ocrText f with _ | t
  · exact stripTimes_localOcr env f n1 n2
  · by_cases ht : t = []
    · simp only [if_pos ht]
      exact stripTimes_localOcr env f n1 n2
    · simp only [if_neg ht]
      rfl

/-- The spaCy parser depends on the clock only through `parsed_at`. -/
theorem stripTimes_spacyParse (senv : SpacyEnv) (f : RFile) (n1 n2 : Str) :
    stripTimes (spacyParseResume senv n1 f) =
      stripTimes (spacyParseResume senv n2 f) := by
  simp only [spacyParseResume]
  rcases h : spacyExtractText senv f with _ | t
  · rfl
  · by_cases ht : (stripStr t).length < 50
    · simp only [if_pos ht]
    · simp only [if_neg ht]
      rfl

/-- The spaCy provider depends on the clock only through `parsed_at`. -/
theorem stripTimes_withSpacy (env : EParserEnv) (f : RFile) (n1 n2 : Str) :
    stripTimes (parseWithSpacy env n1 f) =
      stripTimes (parseWithSpacy env n2 f) := by
  simp only [parseWithSpacy]
  by_cases hs : env.spacyRaises = true
  · simp only [if_pos hs]
    exact stripTimes_textExtr env f n1 n2
  · simp only [if_neg hs]
    exact stripTimes_spacyParse env.senv f n1 n2

/-- C9: for a fixed file (content and filename), provider name, and
environment of external extraction results, two calls of `parse_resume` at
different clock readings return identical results once the `parsed_at`
timestamp is erased — parsing is deterministic. -/
theorem c9_parse_deterministic (env : EParserEnv) (f : RFile) (p : Str) (n1 n2 : Str) :
    stripTimes (enhancedParseResume env n1 f p) =
      stripTimes (enhancedParseResume env n2 f p) := by
  simp only [enhancedParseResume]
  by_cases hv : ¬ validateFile f = true
  · simp only [if_pos hv]
  · simp only [if_neg hv]
    by_cases h1 : p = S "ocr_space"
    · simp only [if_pos h1]
      exact stripTimes_ocrSpace env f n1 n2
    · simp only [if_neg h1]
      by_cases h2 : p = S "local_ocr"
      · simp only [if_pos h2]
        exact stripTimes_localOcr env f n1 n2
      · simp only [if_neg h2]
        by_cases h3 : p = S "text_extraction"
        · simp only [if_pos h3]
          exact stripTimes_textExtr env f n1 n2
        · simp only [if_neg h3]
          exact stripTimes_withSpacy env f n1 n2
